import Mathlib

/-!
Shallow embedding of the QEMU audio mixing engine core (src/audio/audio.c)
and theorems checking the natural-language specification against it.

Conventions:
* C `size_t` values are modelled as `Nat`; where the C code can wrap around
  (unsigned subtraction), the wrap is made explicit through `wsub` below,
  with the word size `WSIZE = 2^64`.
* Sample data (the contents of `st_sample` buffers) is not modelled: none of
  the checked claims is about sample values, only about counters, positions,
  flags and event emission.
* Host callbacks (backend `pcm_ops`, capture notify/data callbacks, software
  voice callbacks) are modelled as explicit function parameters and as an
  emitted event list.
* The rate-converter (`st_rate_flow`/`st_rate_flow_mix`, from mixeng, whose
  source is not part of this tree) is modelled from the spec, see below.
-/

/-- The size_t word: counters in the C code are 64-bit unsigned. -/
def WSIZE : Nat := 2 ^ 64

/-- The constant `SIZE_MAX`, the starting accumulator of `audio_pcm_hw_find_min_out`. -/
def SIZE_MAX : Nat := WSIZE - 1

/-- C unsigned (size_t) subtraction `a - b`, wrapping modulo `2^64`.
Assumes `a b < WSIZE` as every size_t value is. -/
def wsub (a b : Nat) : Nat := (WSIZE + a - b) % WSIZE

/-- Modelled from the spec: the rate converter `st_rate_flow` /
`st_rate_flow_mix` (mixeng rate code, absent from the sources here).
Per spec §4.1 the conversion ratio is a fixed-point 32.32 value
`(dst_rate << 32) / src_rate`; the converter consumes up to `n_in` source
frames and produces up to `n_out` destination frames, the destination count
for `i` source frames being `(i * ratio) >> 32` with truncating shift, and
for equal rates (`ratio = 2^32`) it is a direct copy. We take the maximal
consumable source count whose production fits in `n_out`. Returns
(frames consumed, frames produced). -/
def st_rate_flow (ratio n_in n_out : Nat) : Nat × Nat :=
  let i := min n_in ((((n_out + 1) <<< 32) - 1) / ratio)
  (i, (i * ratio) >>> 32)

/-- The mixing variant `st_rate_flow_mix` differs from `st_rate_flow` only in adding into the
destination samples instead of overwriting; sample data is not modelled, so
the frame accounting is the same function. -/
def st_rate_flow_mix (ratio n_in n_out : Nat) : Nat × Nat :=
  st_rate_flow ratio n_in n_out

theorem st_rate_flow_fst_le (ratio n_in n_out : Nat) :
    (st_rate_flow ratio n_in n_out).1 ≤ n_in :=
  Nat.min_le_left _ _

theorem st_rate_flow_snd_le (ratio n_in n_out : Nat) :
    (st_rate_flow ratio n_in n_out).2 ≤ n_out := by
  unfold st_rate_flow
  simp only [Nat.shiftRight_eq_div_pow]
  rcases Nat.eq_zero_or_pos ratio with h0 | hpos
  · subst h0; simp
  · have hle : min n_in ((((n_out + 1) <<< 32) - 1) / ratio) ≤
        (((n_out + 1) <<< 32) - 1) / ratio := Nat.min_le_right _ _
    have hmul : min n_in ((((n_out + 1) <<< 32) - 1) / ratio) * ratio ≤
        (((n_out + 1) <<< 32) - 1) := by
      calc min n_in ((((n_out + 1) <<< 32) - 1) / ratio) * ratio
          ≤ ((((n_out + 1) <<< 32) - 1) / ratio) * ratio :=
            Nat.mul_le_mul_right _ hle
        _ ≤ ((n_out + 1) <<< 32) - 1 := Nat.div_mul_le_self _ _
    have hlt : min n_in ((((n_out + 1) <<< 32) - 1) / ratio) * ratio <
        (n_out + 1) * 2 ^ 32 := by
      have : ((n_out + 1) <<< 32) = (n_out + 1) * 2 ^ 32 := Nat.shiftLeft_eq _ _
      omega
    have := (Nat.div_lt_iff_lt_mul (by positivity : (0:Nat) < 2 ^ 32)).mpr hlt
    omega

theorem st_rate_flow_fst_le_snd (ratio n_in n_out : Nat)
    (h : 2 ^ 32 ≤ ratio) :
    (st_rate_flow ratio n_in n_out).1 ≤ (st_rate_flow ratio n_in n_out).2 := by
  unfold st_rate_flow
  simp only [Nat.shiftRight_eq_div_pow]
  set i := min n_in ((((n_out + 1) <<< 32) - 1) / ratio) with hi
  have : i * 2 ^ 32 ≤ i * ratio := Nat.mul_le_mul_left _ h
  exact (Nat.le_div_iff_mul_le (by positivity : (0:Nat) < 2 ^ 32)).mpr this

/-! ## Software playback voice and `audio_pcm_sw_write` (audio.c:665) -/

/-- Software playback voice (`SWVoiceOut`): the fields of the C struct the
claims are about. `has_cb` models `callback.fn != NULL`; sample/conversion
scratch buffers and name are not modelled. -/
structure SWVoiceOut where
  active : Bool
  empty : Bool
  has_cb : Bool
  total_hw_samples_mixed : Nat
  ratio : Nat
  shift : Nat
  deriving Repr, DecidableEq

/-- The mixing loop of `audio_pcm_sw_write` (audio.c:704-726).  Arguments
after the fuel: `swlim live wpos ret total`; returns (ret, total), the
source frames consumed and destination frames mixed.  The C loop terminates
unless the rate converter stops making progress; fuel `swlim + 1` is enough
for every productive run and a non-productive iteration changes nothing, so
burning fuel agrees with the C fixpoint. -/
def audio_pcm_sw_write_loop (ratio hwsamples : Nat) :
    Nat → Nat → Nat → Nat → Nat → Nat → Nat × Nat
  | 0, _, _, _, ret, total => (ret, total)
  | fuel + 1, swlim, live, wpos, ret, total =>
    if swlim = 0 then (ret, total)
    else
      let dead := hwsamples - live
      let left := hwsamples - wpos
      let blck := min dead left
      if blck = 0 then (ret, total)
      else
        let io := st_rate_flow_mix ratio swlim blck
        audio_pcm_sw_write_loop ratio hwsamples fuel (swlim - io.1) (live + io.2)
          ((wpos + io.2) % hwsamples) (ret + io.1) (total + io.2)

/-- Model of `audio_pcm_sw_write` (audio.c:665-742) on a non-null voice.
`hwSize`/`hwPos` are `sw->hw->mix_buf->size` and `sw->hw->mix_buf->pos`
(not modified by the function).  Returns (bytes accepted, updated voice,
whether `audio_bug` logged).  Format conversion and volume scaling act on
sample data only and are not modelled. -/
def audio_pcm_sw_write (hwSize hwPos : Nat) (sw : SWVoiceOut) (size : Nat) :
    Nat × SWVoiceOut × Bool :=
  let hwsamples := hwSize
  let live := sw.total_hw_samples_mixed
  if live > hwsamples then (0, sw, true)
  else if live = hwsamples then (0, sw, false)
  else
    let wpos := (hwPos + live) % hwsamples
    let samples := size >>> sw.shift
    let dead := hwsamples - live
    let swlim := min ((dead <<< 32) / sw.ratio) samples
    let rt := audio_pcm_sw_write_loop sw.ratio hwsamples (swlim + 1) swlim live wpos 0 0
    let mixed := sw.total_hw_samples_mixed + rt.2
    (rt.1 <<< sw.shift,
     { sw with total_hw_samples_mixed := mixed, empty := decide (mixed = 0) },
     false)

/-- A sequence of `sw_write` calls on one voice with no intervening hardware
draining (`hwPos` and the hardware counters fixed): folds the byte sizes,
returning the final voice and the cumulative sum of returned bytes. -/
def audio_pcm_sw_write_seq (hwSize hwPos : Nat) (sw : SWVoiceOut) :
    List Nat → SWVoiceOut × Nat
  | [] => (sw, 0)
  | s :: rest =>
    let r := audio_pcm_sw_write hwSize hwPos sw s
    let rs := audio_pcm_sw_write_seq hwSize hwPos r.2.1 rest
    (rs.1, r.1 + rs.2)

theorem audio_pcm_sw_write_loop_ret_le (ratio hwsamples : Nat) :
    ∀ fuel swlim live wpos ret total,
      (audio_pcm_sw_write_loop ratio hwsamples fuel swlim live wpos ret total).1
        ≤ ret + swlim := by
  intro fuel
  induction fuel with
  | zero =>
    intro swlim live wpos ret total
    simp [audio_pcm_sw_write_loop]
  | succ n ih =>
    intro swlim live wpos ret total
    simp only [audio_pcm_sw_write_loop]
    split
    · omega
    · split
      · omega
      · have h1 := st_rate_flow_fst_le ratio swlim
          (min (hwsamples - live) (hwsamples - wpos))
        have h2 := ih (swlim - (st_rate_flow_mix ratio swlim
            (min (hwsamples - live) (hwsamples - wpos))).1)
          (live + (st_rate_flow_mix ratio swlim
            (min (hwsamples - live) (hwsamples - wpos))).2)
          ((wpos + (st_rate_flow_mix ratio swlim
            (min (hwsamples - live) (hwsamples - wpos))).2) % hwsamples)
          (ret + (st_rate_flow_mix ratio swlim
            (min (hwsamples - live) (hwsamples - wpos))).1)
          (total + (st_rate_flow_mix ratio swlim
            (min (hwsamples - live) (hwsamples - wpos))).2)
        simp only [st_rate_flow_mix] at h2 ⊢
        omega

theorem audio_pcm_sw_write_loop_total_le (ratio hwsamples : Nat) :
    ∀ fuel swlim live wpos ret total, live ≤ hwsamples →
      (audio_pcm_sw_write_loop ratio hwsamples fuel swlim live wpos ret total).2
        ≤ total + (hwsamples - live) := by
  intro fuel
  induction fuel with
  | zero =>
    intro swlim live wpos ret total _
    simp [audio_pcm_sw_write_loop]
  | succ n ih =>
    intro swlim live wpos ret total hlive
    simp only [audio_pcm_sw_write_loop]
    split
    · omega
    · split
      · omega
      · have h1 := st_rate_flow_snd_le ratio swlim
          (min (hwsamples - live) (hwsamples - wpos))
        have hosamp : (st_rate_flow_mix ratio swlim
            (min (hwsamples - live) (hwsamples - wpos))).2 ≤ hwsamples - live := by
          simp only [st_rate_flow_mix]
          omega
        have h2 := ih (swlim - (st_rate_flow_mix ratio swlim
            (min (hwsamples - live) (hwsamples - wpos))).1)
          (live + (st_rate_flow_mix ratio swlim
            (min (hwsamples - live) (hwsamples - wpos))).2)
          ((wpos + (st_rate_flow_mix ratio swlim
            (min (hwsamples - live) (hwsamples - wpos))).2) % hwsamples)
          (ret + (st_rate_flow_mix ratio swlim
            (min (hwsamples - live) (hwsamples - wpos))).1)
          (total + (st_rate_flow_mix ratio swlim
            (min (hwsamples - live) (hwsamples - wpos))).2)
          (by omega)
        omega

theorem audio_pcm_sw_write_loop_ret_le_total (ratio hwsamples : Nat)
    (hr : 2 ^ 32 ≤ ratio) :
    ∀ fuel swlim live wpos ret total,
      (audio_pcm_sw_write_loop ratio hwsamples fuel swlim live wpos ret total).1
          + total
        ≤ ret +
          (audio_pcm_sw_write_loop ratio hwsamples fuel swlim live wpos ret total).2 := by
  intro fuel
  induction fuel with
  | zero =>
    intro swlim live wpos ret total
    simp [audio_pcm_sw_write_loop]
  | succ n ih =>
    intro swlim live wpos ret total
    simp only [audio_pcm_sw_write_loop]
    split
    · simp
    · split
      · simp
      · have h1 := st_rate_flow_fst_le_snd ratio swlim
          (min (hwsamples - live) (hwsamples - wpos)) hr
        have h2 := ih (swlim - (st_rate_flow_mix ratio swlim
            (min (hwsamples - live) (hwsamples - wpos))).1)
          (live + (st_rate_flow_mix ratio swlim
            (min (hwsamples - live) (hwsamples - wpos))).2)
          ((wpos + (st_rate_flow_mix ratio swlim
            (min (hwsamples - live) (hwsamples - wpos))).2) % hwsamples)
          (ret + (st_rate_flow_mix ratio swlim
            (min (hwsamples - live) (hwsamples - wpos))).1)
          (total + (st_rate_flow_mix ratio swlim
            (min (hwsamples - live) (hwsamples - wpos))).2)
        simp only [st_rate_flow_mix] at h1 h2 ⊢
        omega

theorem audio_pcm_sw_write_counter_le (hwSize hwPos : Nat) (sw : SWVoiceOut)
    (size : Nat) (h : sw.total_hw_samples_mixed ≤ hwSize) :
    (audio_pcm_sw_write hwSize hwPos sw size).2.1.total_hw_samples_mixed
      ≤ hwSize := by
  unfold audio_pcm_sw_write
  rw [if_neg (by omega : ¬ sw.total_hw_samples_mixed > hwSize)]
  by_cases he : sw.total_hw_samples_mixed = hwSize
  · rw [if_pos he]; exact h
  · rw [if_neg he]
    have := audio_pcm_sw_write_loop_total_le sw.ratio hwSize
      (min ((hwSize - sw.total_hw_samples_mixed) <<< 32 / sw.ratio)
        (size >>> sw.shift) + 1)
      (min ((hwSize - sw.total_hw_samples_mixed) <<< 32 / sw.ratio)
        (size >>> sw.shift))
      sw.total_hw_samples_mixed
      ((hwPos + sw.total_hw_samples_mixed) % hwSize) 0 0 h
    simp only
    omega

theorem audio_pcm_sw_write_shift_eq (hwSize hwPos : Nat) (sw : SWVoiceOut)
    (size : Nat) :
    (audio_pcm_sw_write hwSize hwPos sw size).2.1.shift = sw.shift ∧
    (audio_pcm_sw_write hwSize hwPos sw size).2.1.ratio = sw.ratio := by
  unfold audio_pcm_sw_write
  dsimp only
  split
  · exact ⟨rfl, rfl⟩
  · split
    · exact ⟨rfl, rfl⟩
    · exact ⟨rfl, rfl⟩

theorem audio_pcm_sw_write_bytes_le_gain (hwSize hwPos : Nat) (sw : SWVoiceOut)
    (size : Nat) (hr : 2 ^ 32 ≤ sw.ratio) :
    (audio_pcm_sw_write hwSize hwPos sw size).1
        + (sw.total_hw_samples_mixed <<< sw.shift)
      ≤ (audio_pcm_sw_write hwSize hwPos sw size).2.1.total_hw_samples_mixed
          <<< sw.shift := by
  unfold audio_pcm_sw_write
  dsimp only
  split
  · simp
  · split
    · simp
    · simp only
      set swlim := min ((hwSize - sw.total_hw_samples_mixed) <<< 32 / sw.ratio)
        (size >>> sw.shift) with hswlim
      have h3 := audio_pcm_sw_write_loop_ret_le_total sw.ratio hwSize hr
        (swlim + 1) swlim sw.total_hw_samples_mixed
        ((hwPos + sw.total_hw_samples_mixed) % hwSize) 0 0
      set rt := audio_pcm_sw_write_loop sw.ratio hwSize (swlim + 1) swlim
        sw.total_hw_samples_mixed
        ((hwPos + sw.total_hw_samples_mixed) % hwSize) 0 0 with hrt
      simp only [Nat.shiftLeft_eq]
      have : rt.1 ≤ rt.2 := by omega
      calc rt.1 * 2 ^ sw.shift + sw.total_hw_samples_mixed * 2 ^ sw.shift
          = (rt.1 + sw.total_hw_samples_mixed) * 2 ^ sw.shift := by ring
        _ ≤ (sw.total_hw_samples_mixed + rt.2) * 2 ^ sw.shift :=
            Nat.mul_le_mul_right _ (by omega)

theorem audio_pcm_sw_write_seq_counter_le (hwSize hwPos : Nat) :
    ∀ (sizes : List Nat) (sw : SWVoiceOut),
      sw.total_hw_samples_mixed ≤ hwSize →
      (audio_pcm_sw_write_seq hwSize hwPos sw sizes).1.total_hw_samples_mixed
        ≤ hwSize := by
  intro sizes
  induction sizes with
  | nil => intro sw h; exact h
  | cons s rest ih =>
    intro sw h
    exact ih _ (audio_pcm_sw_write_counter_le hwSize hwPos sw s h)

theorem audio_pcm_sw_write_seq_bytes_le (hwSize hwPos : Nat) :
    ∀ (sizes : List Nat) (sw : SWVoiceOut), 2 ^ 32 ≤ sw.ratio →
      (audio_pcm_sw_write_seq hwSize hwPos sw sizes).2
          + (sw.total_hw_samples_mixed <<< sw.shift)
        ≤ (audio_pcm_sw_write_seq hwSize hwPos sw sizes).1.total_hw_samples_mixed
            <<< sw.shift ∧
      (audio_pcm_sw_write_seq hwSize hwPos sw sizes).1.shift = sw.shift := by
  intro sizes
  induction sizes with
  | nil => intro sw _; exact ⟨by simp [audio_pcm_sw_write_seq], rfl⟩
  | cons s rest ih =>
    intro sw hr
    have hf := audio_pcm_sw_write_shift_eq hwSize hwPos sw s
    have h1 := audio_pcm_sw_write_bytes_le_gain hwSize hwPos sw s hr
    have h2 := ih (audio_pcm_sw_write hwSize hwPos sw s).2.1 (by rw [hf.2]; exact hr)
    simp only [audio_pcm_sw_write_seq]
    rw [hf.1] at h2
    exact ⟨by omega, h2.2⟩

/-- C5: for every non-null software playback voice whose mixed counter does
not exceed the mix buffer capacity, `sw_write(sw, buf, size)` returns a byte
count that is a multiple of the voice's frame size `1 << info.shift` and at
most `size`, and it returns 0 when the hardware ring buffer has no free
space (`total_hw_samples_mixed` equals the buffer capacity). -/
theorem audio_sw_write_contract (hwSize hwPos : Nat) (sw : SWVoiceOut)
    (size : Nat) (h : sw.total_hw_samples_mixed ≤ hwSize) :
    (audio_pcm_sw_write hwSize hwPos sw size).1 % (1 <<< sw.shift) = 0 ∧
    (audio_pcm_sw_write hwSize hwPos sw size).1 ≤ size ∧
    (sw.total_hw_samples_mixed = hwSize →
      (audio_pcm_sw_write hwSize hwPos sw size).1 = 0) := by
  unfold audio_pcm_sw_write
  dsimp only
  rw [if_neg (by omega : ¬ sw.total_hw_samples_mixed > hwSize)]
  by_cases he : sw.total_hw_samples_mixed = hwSize
  · rw [if_pos he]
    exact ⟨Nat.zero_mod _, Nat.zero_le _, fun _ => rfl⟩
  · rw [if_neg he]
    set swlim := min ((hwSize - sw.total_hw_samples_mixed) <<< 32 / sw.ratio)
      (size >>> sw.shift) with hswlim
    have hret := audio_pcm_sw_write_loop_ret_le sw.ratio hwSize
      (swlim + 1) swlim sw.total_hw_samples_mixed
      ((hwPos + sw.total_hw_samples_mixed) % hwSize) 0 0
    set rt := audio_pcm_sw_write_loop sw.ratio hwSize (swlim + 1) swlim
      sw.total_hw_samples_mixed
      ((hwPos + sw.total_hw_samples_mixed) % hwSize) 0 0 with hrt
    refine ⟨?_, ?_, fun hc => absurd hc he⟩
    · simp only [Nat.shiftLeft_eq, one_mul]
      exact Nat.mul_mod_left _ _
    · have h1 : rt.1 ≤ size >>> sw.shift := by
        have := Nat.min_le_right
          ((hwSize - sw.total_hw_samples_mixed) <<< 32 / sw.ratio)
          (size >>> sw.shift)
        omega
      calc rt.1 <<< sw.shift = rt.1 * 2 ^ sw.shift := Nat.shiftLeft_eq _ _
        _ ≤ (size >>> sw.shift) * 2 ^ sw.shift := Nat.mul_le_mul_right _ h1
        _ = size / 2 ^ sw.shift * 2 ^ sw.shift := by
            rw [Nat.shiftRight_eq_div_pow]
        _ ≤ size := Nat.div_mul_le_self _ _

/-- Closed witness for `audio_sw_write_contract` at a concrete voice. -/
theorem audio_sw_write_contract_witness :
    (audio_pcm_sw_write 4096 0 ⟨true, true, true, 0, 2 ^ 32, 2⟩ 8192).1 %
        (1 <<< 2) = 0 ∧
    (audio_pcm_sw_write 4096 0 ⟨true, true, true, 0, 2 ^ 32, 2⟩ 8192).1 ≤ 8192 ∧
    ((0:Nat) = 4096 →
      (audio_pcm_sw_write 4096 0 ⟨true, true, true, 0, 2 ^ 32, 2⟩ 8192).1 = 0) :=
  audio_sw_write_contract 4096 0 ⟨true, true, true, 0, 2 ^ 32, 2⟩ 8192
    (by decide)

/-- C2 (amended): for a software playback voice whose mixed counter starts
within the capacity, `total_hw_samples_mixed` stays between 0 and the
hardware mix buffer capacity after each `sw_write` call of any sequence with
no intervening hardware draining.  The cumulative sum of returned bytes is
bounded by the capacity expressed in client-format bytes whenever the
voice's rate ratio is at least unity (hardware rate ≥ client rate); for a
down-sampling voice the byte sum can exceed that bound (see the
counterexample), because the returned count are the *source* frames
consumed, which exceed the destination frames mixed. -/
theorem audio_sw_write_counter_invariant (hwSize hwPos : Nat)
    (sw : SWVoiceOut) (h0 : sw.total_hw_samples_mixed ≤ hwSize) :
    (∀ size, (audio_pcm_sw_write hwSize hwPos sw size).2.1.total_hw_samples_mixed
        ≤ hwSize) ∧
    (∀ sizes, (audio_pcm_sw_write_seq hwSize hwPos sw
        sizes).1.total_hw_samples_mixed ≤ hwSize) ∧
    (2 ^ 32 ≤ sw.ratio →
      ∀ sizes, (audio_pcm_sw_write_seq hwSize hwPos sw sizes).2
        ≤ hwSize <<< sw.shift) := by
  refine ⟨fun size => audio_pcm_sw_write_counter_le hwSize hwPos sw size h0,
    fun sizes => audio_pcm_sw_write_seq_counter_le hwSize hwPos sizes sw h0,
    fun hr sizes => ?_⟩
  have h1 := (audio_pcm_sw_write_seq_bytes_le hwSize hwPos sizes sw hr).1
  have h2 := audio_pcm_sw_write_seq_counter_le hwSize hwPos sizes sw h0
  have h3 : (audio_pcm_sw_write_seq hwSize hwPos sw
      sizes).1.total_hw_samples_mixed <<< sw.shift ≤ hwSize <<< sw.shift := by
    simp only [Nat.shiftLeft_eq]
    exact Nat.mul_le_mul_right _ h2
  simp only [Nat.shiftLeft_eq] at h1 h3 ⊢
  omega

/-- Closed witness for `audio_sw_write_counter_invariant` at a concrete
voice and sequence. -/
theorem audio_sw_write_counter_invariant_witness :
    (∀ size, (audio_pcm_sw_write 8 0 ⟨true, true, true, 2, 2 ^ 32, 1⟩
        size).2.1.total_hw_samples_mixed ≤ 8) ∧
    (∀ sizes, (audio_pcm_sw_write_seq 8 0 ⟨true, true, true, 2, 2 ^ 32, 1⟩
        sizes).1.total_hw_samples_mixed ≤ 8) ∧
    (2 ^ 32 ≤ 2 ^ 32 →
      ∀ sizes, (audio_pcm_sw_write_seq 8 0 ⟨true, true, true, 2, 2 ^ 32, 1⟩
        sizes).2 ≤ 8 <<< 1) :=
  audio_sw_write_counter_invariant 8 0 ⟨true, true, true, 2, 2 ^ 32, 1⟩
    (by decide)

/-- C2 counterexample: a down-sampling voice (client rate twice the hardware
rate, `ratio = 2^31`), hardware capacity 4 frames, frame size 2 bytes.  A
single `sw_write` call of 32 bytes already returns 16 bytes — more than the
ring buffer capacity expressed in client-format bytes (`4 << 1 = 8`) — so
the cumulative sum of returned bytes exceeds that capacity, refuting the
claim as stated (its counter-invariant half does hold: the counter ends at
the capacity 4). -/
theorem audio_sw_write_byte_sum_counterexample :
    (audio_pcm_sw_write_seq 4 0 ⟨true, true, true, 0, 2 ^ 31, 1⟩ [32]).2
        > 4 <<< 1 ∧
    (audio_pcm_sw_write_seq 4 0 ⟨true, true, true, 0, 2 ^ 31, 1⟩
        [32]).1.total_hw_samples_mixed ≤ 4 := by
  decide

/-! ## PCM info (audio.c:209-304) -/

/-- The sample formats the engine accepts.  The C enum's `AUDIO_FORMAT_MAX`
sentinel is not a settable stream format and is omitted. -/
inductive AudioFormat where
  | U8 | S8 | U16 | S16 | U32 | S32
  deriving Repr, DecidableEq

/-- Structure `struct audsettings`; `freq` is a C `int`, modelled as `Int`. -/
structure audsettings where
  freq : Int
  nchannels : Nat
  fmt : AudioFormat
  endianness : Nat
  deriving Repr, DecidableEq

/-- The constant `AUDIO_HOST_ENDIANNESS`: fixed to little-endian; no checked claim
depends on the host byte order. -/
def AUDIO_HOST_ENDIANNESS : Nat := 0

/-- Model of `audio_validate_settings` (audio.c:209-231); `true` means invalid (the
C function returns -1).  Every value of `AudioFormat` is one of the six
accepted formats, so the format switch contributes no invalidity here. -/
def audio_validate_settings (as : audsettings) : Bool :=
  (decide (as.nchannels ≠ 1) && decide (as.nchannels ≠ 2)) ||
  (decide (as.endianness ≠ 0) && decide (as.endianness ≠ 1)) ||
  decide (as.freq ≤ 0)

/-- Model of `audioformat_bytes_per_sample` (audio.c:1952-1971). -/
def audioformat_bytes_per_sample : AudioFormat → Nat
  | .U8 | .S8 => 1
  | .U16 | .S16 => 2
  | .U32 | .S32 => 4

/-- Structure `struct audio_pcm_info`: the derived per-stream descriptor. -/
structure audio_pcm_info where
  freq : Int
  bits : Nat
  sign : Bool
  nchannels : Nat
  shift : Nat
  align : Nat
  bytes_per_second : Int
  swap_endianness : Bool
  deriving Repr, DecidableEq

/-- Model of `audio_pcm_init_info` (audio.c:268-304).  The `(bits, sign, fmt-shift)`
triple follows the C switch (with its fall-throughs); `shift` adds 1 for
stereo. -/
def audio_pcm_init_info (as : audsettings) : audio_pcm_info :=
  let bss : Nat × Bool × Nat :=
    match as.fmt with
    | .S8 => (8, true, 0)
    | .U8 => (8, false, 0)
    | .S16 => (16, true, 1)
    | .U16 => (16, false, 1)
    | .S32 => (32, true, 2)
    | .U32 => (32, false, 2)
  let shift := (if as.nchannels = 2 then 1 else 0) + bss.2.2
  { freq := as.freq
    bits := bss.1
    sign := bss.2.1
    nchannels := as.nchannels
    shift := shift
    align := (1 <<< shift) - 1
    bytes_per_second := as.freq * ((2:Int) ^ shift)
    swap_endianness := decide (as.endianness ≠ AUDIO_HOST_ENDIANNESS) }

theorem shift_round_trip (s b : Nat) (h : b % 2 ^ s = 0) :
    (b >>> s) <<< s = b := by
  rw [Nat.shiftRight_eq_div_pow, Nat.shiftLeft_eq]
  exact Nat.div_mul_cancel (Nat.dvd_of_mod_eq_zero h)

/-- C7: for all settings accepted by validation, `audio_pcm_init_info`
produces `shift` equal to (1 if stereo else 0) plus log2 of the bytes per
sample; for every frame count `n`, `n << shift` equals the byte count of
`n` frames, and a frame-aligned byte count round-trips exactly through
`>> shift` then `<< shift`. -/
theorem audio_pcm_init_info_shift_spec (as : audsettings)
    (h : audio_validate_settings as = false) :
    (audio_pcm_init_info as).shift
        = (if as.nchannels = 2 then 1 else 0)
          + Nat.log2 (audioformat_bytes_per_sample as.fmt) ∧
    (∀ n : Nat, n <<< (audio_pcm_init_info as).shift
        = n * (as.nchannels * audioformat_bytes_per_sample as.fmt)) ∧
    (∀ b : Nat, b % (as.nchannels * audioformat_bytes_per_sample as.fmt) = 0 →
      (b >>> (audio_pcm_init_info as).shift) <<< (audio_pcm_init_info as).shift
        = b) := by
  obtain ⟨f, nc, fm, en⟩ := as
  simp only [audio_validate_settings, Bool.or_eq_false_iff,
    Bool.and_eq_false_iff, decide_eq_false_iff_not, not_not] at h
  have hnc : nc = 1 ∨ nc = 2 := by
    rcases h.1.1 with h1 | h1
    · exact Or.inl h1
    · exact Or.inr h1
  rcases hnc with hnc | hnc <;> subst hnc <;> cases fm <;>
    refine ⟨by simp [audio_pcm_init_info, audioformat_bytes_per_sample,
        Nat.log2],
      fun n => by norm_num [audio_pcm_init_info,
        audioformat_bytes_per_sample, Nat.shiftLeft_eq],
      fun b hb => ?_⟩ <;>
    simp only [audio_pcm_init_info, audioformat_bytes_per_sample] at hb ⊢ <;>
    norm_num at hb ⊢ <;>
    first
    | simpa using shift_round_trip 0 b (by simpa using hb)
    | simpa using shift_round_trip 1 b (by simpa using hb)
    | simpa using shift_round_trip 2 b (by simpa using hb)
    | simpa using shift_round_trip 3 b (by simpa using hb)

/-- Closed witness for `audio_pcm_init_info_shift_spec` at 44100 Hz stereo
S16. -/
theorem audio_pcm_init_info_shift_spec_witness :
    (audio_pcm_init_info ⟨44100, 2, AudioFormat.S16, 0⟩).shift
        = (if (2:Nat) = 2 then 1 else 0)
          + Nat.log2 (audioformat_bytes_per_sample AudioFormat.S16) ∧
    (∀ n : Nat, n <<< (audio_pcm_init_info ⟨44100, 2, AudioFormat.S16, 0⟩).shift
        = n * (2 * audioformat_bytes_per_sample AudioFormat.S16)) ∧
    (∀ b : Nat, b % (2 * audioformat_bytes_per_sample AudioFormat.S16) = 0 →
      (b >>> (audio_pcm_init_info ⟨44100, 2, AudioFormat.S16, 0⟩).shift) <<<
          (audio_pcm_init_info ⟨44100, 2, AudioFormat.S16, 0⟩).shift = b) :=
  audio_pcm_init_info_shift_spec ⟨44100, 2, AudioFormat.S16, 0⟩ (by decide)

/-! ## Capture-side hardware/software voices (audio.c:502-618, 1200-1239) -/

/-- Structure `SWVoiceIn`: software capture voice fields used by the claims. -/
structure SWVoiceIn where
  active : Bool
  total_hw_samples_acquired : Nat
  ratio : Nat
  shift : Nat
  deriving Repr, DecidableEq

/-- Structure `HWVoiceIn`: capture hardware voice; `conv_size`/`conv_pos` are
`conv_buf->size` and `conv_buf->pos`. -/
structure HWVoiceIn where
  enabled : Bool
  conv_size : Nat
  conv_pos : Nat
  total_samples_captured : Nat
  sw_head : List SWVoiceIn
  deriving Repr, DecidableEq

/-- Model of `audio_pcm_hw_find_min_in` (audio.c:502-513): minimum of
`total_samples_captured` and the acquired counters of the active voices. -/
def audio_pcm_hw_find_min_in (hw : HWVoiceIn) : Nat :=
  hw.sw_head.foldl
    (fun m sw => if sw.active then min m sw.total_hw_samples_acquired else m)
    hw.total_samples_captured

/-- Model of `audio_pcm_hw_get_live_in` (audio.c:515-523).  Returns (live, logged):
on invariant violation (`live > conv_buf->size`) it logs through
`audio_bug` and returns the clamped value 0. -/
def audio_pcm_hw_get_live_in (hw : HWVoiceIn) : Nat × Bool :=
  let live := hw.total_samples_captured - audio_pcm_hw_find_min_in hw
  if live > hw.conv_size then (0, true) else (live, false)

/-- Model of `audio_pcm_sw_get_rpos_in` (audio.c:548-566).  `live` is a C `ssize_t`
here, hence `Int`; returns (rpos, logged), 0 with a log on violation. -/
def audio_pcm_sw_get_rpos_in (hw : HWVoiceIn) (sw : SWVoiceIn) : Nat × Bool :=
  let live : Int := (hw.total_samples_captured : Int) - sw.total_hw_samples_acquired
  if live < 0 ∨ live > (hw.conv_size : Int) then (0, true)
  else
    let rpos : Int := (hw.conv_pos : Int) - live
    if rpos ≥ 0 then (rpos.toNat, false)
    else (((hw.conv_size : Int) + rpos).toNat, false)

/-- The conversion loop of `audio_pcm_sw_read` (audio.c:590-609).
Arguments after fuel: `rpos swlim ret total`; returns (ret, total) =
(client frames produced, hw frames consumed). -/
def audio_pcm_sw_read_loop (ratio convSize convPos : Nat) :
    Nat → Nat → Nat → Nat → Nat → Nat × Nat
  | 0, _, _, ret, total => (ret, total)
  | fuel + 1, rpos, swlim, ret, total =>
    if swlim = 0 then (ret, total)
    else
      let isamp := if convPos > rpos then convPos - rpos else convSize - rpos
      if isamp = 0 then (ret, total)
      else
        let io := st_rate_flow ratio isamp swlim
        audio_pcm_sw_read_loop ratio convSize convPos fuel
          ((rpos + io.1) % convSize) (swlim - io.2) (ret + io.2) (total + io.1)

/-- Model of `audio_pcm_sw_read` (audio.c:568-618).  Returns (bytes, updated voice,
logged).  The `live` here is computed in size_t arithmetic (`wsub`);
clipping and volume act on sample data only and are not modelled. -/
def audio_pcm_sw_read (hw : HWVoiceIn) (sw : SWVoiceIn) (size : Nat) :
    Nat × SWVoiceIn × Bool :=
  let rpos := (audio_pcm_sw_get_rpos_in hw sw).1 % hw.conv_size
  let live := wsub hw.total_samples_captured sw.total_hw_samples_acquired
  if live > hw.conv_size then (0, sw, true)
  else
    let samples := size >>> sw.shift
    if live = 0 then (0, sw, false)
    else
      let swlim := min ((live * sw.ratio) >>> 32) samples
      let rt := audio_pcm_sw_read_loop sw.ratio hw.conv_size hw.conv_pos
        (swlim + 1) rpos swlim 0 0
      (rt.1 <<< sw.shift,
       { sw with total_hw_samples_acquired :=
           sw.total_hw_samples_acquired + rt.2 },
       false)

/-- Model of `audio_get_avail` (audio.c:933-954) on a non-null voice: client bytes
available to read; logs and returns 0 when `live` exceeds the conversion
buffer size. -/
def audio_get_avail (hw : HWVoiceIn) (sw : SWVoiceIn) : Nat × Bool :=
  let live := wsub hw.total_samples_captured sw.total_hw_samples_acquired
  if live > hw.conv_size then (0, true)
  else (((live <<< 32) / sw.ratio) <<< sw.shift, false)

/-- Model of `audio_get_free` (audio.c:956-980) on a non-null voice: client bytes
writable; logs and returns 0 when `live` exceeds the mix buffer size. -/
def audio_get_free (mixSize : Nat) (sw : SWVoiceOut) : Nat × Bool :=
  let live := sw.total_hw_samples_mixed
  if live > mixSize then (0, true)
  else ((((mixSize - live) <<< 32) / sw.ratio) <<< sw.shift, false)

/-- Events emitted to external collaborators: backend control calls,
capture notify callbacks, voice availability callbacks, capture data
deliveries. -/
inductive AudEvent where
  | ctlOut (enable : Bool)
  | capNotify (cb : Nat) (enable : Bool)
  | swCallback (avail : Nat)
  | capData (cb : Nat) (bytes : Nat)
  deriving Repr, DecidableEq

/-- The backend pull loop `audio_pcm_hw_run_in` (audio.c:1170-1198).
`getSizeIn step requested` models the `get_buffer_in` exchange (returns the
byte count the backend hands over at that call; the generic emulation may
ignore `requested`, so no bound is built in).  Arguments after the fuel:
`step convPos samples conv`; returns (conv, convPos).  `samples -= proc` is
size_t arithmetic, hence `wsub`. -/
def audio_pcm_hw_run_in_loop (getSizeIn : Nat → Nat → Nat) (bpf convSize : Nat) :
    Nat → Nat → Nat → Nat → Nat → Nat × Nat
  | 0, _, convPos, _, conv => (conv, convPos)
  | fuel + 1, step, convPos, samples, conv =>
    if samples = 0 then (conv, convPos)
    else
      let size := getSizeIn step (samples * bpf)
      if size = 0 then (conv, convPos)
      else
        let proc := min (size / bpf) (convSize - convPos)
        audio_pcm_hw_run_in_loop getSizeIn bpf convSize fuel (step + 1)
          ((convPos + proc) % convSize) (wsub samples proc) (conv + proc)

/-- One pass of `audio_run_in` (audio.c:1215-1238) over one enabled capture
hardware voice, mixeng path.  Returns (updated hw, captured, events). -/
def audio_run_in_hw (getSizeIn : Nat → Nat → Nat) (bpf : Nat)
    (hw : HWVoiceIn) : HWVoiceIn × Nat × List AudEvent :=
  let rc := audio_pcm_hw_run_in_loop getSizeIn bpf hw.conv_size
    (hw.conv_size - (audio_pcm_hw_get_live_in hw).1 + 1) 0 hw.conv_pos
    (hw.conv_size - (audio_pcm_hw_get_live_in hw).1) 0
  let captured := rc.1
  let m := audio_pcm_hw_find_min_in hw
  let total2 := (hw.total_samples_captured + wsub captured m) % WSIZE
  let sws := hw.sw_head.map (fun sw =>
    { sw with total_hw_samples_acquired := wsub sw.total_hw_samples_acquired m })
  let hw2 : HWVoiceIn :=
    { hw with conv_pos := rc.2, total_samples_captured := total2, sw_head := sws }
  let evs := sws.foldr (fun sw acc =>
    if sw.active then
      (if (audio_get_avail hw2 sw).1 > 0 then
        [AudEvent.swCallback (audio_get_avail hw2 sw).1]
      else []) ++ acc
    else acc) []
  (hw2, captured, evs)

theorem audio_pcm_hw_find_min_in_fold_le (l : List SWVoiceIn) : ∀ init : Nat,
    (l.foldl (fun m sw =>
        if sw.active then min m sw.total_hw_samples_acquired else m) init
      ≤ init) ∧
    (∀ sw ∈ l, sw.active = true →
      l.foldl (fun m sw =>
          if sw.active then min m sw.total_hw_samples_acquired else m) init
        ≤ sw.total_hw_samples_acquired) := by
  induction l with
  | nil => intro init; exact ⟨le_refl _, by simp⟩
  | cons sw l ih =>
    intro init
    have hstep : (if sw.active then min init sw.total_hw_samples_acquired
        else init) ≤ init := by split <;> omega
    have h := ih (if sw.active then min init sw.total_hw_samples_acquired
      else init)
    refine ⟨le_trans h.1 hstep, ?_⟩
    intro sw2 hmem hact
    rcases List.mem_cons.mp hmem with rfl | hmem2
    · refine le_trans h.1 ?_
      rw [hact]
      simp
    · exact h.2 sw2 hmem2 hact

theorem audio_pcm_hw_find_min_in_le (hw : HWVoiceIn) :
    audio_pcm_hw_find_min_in hw ≤ hw.total_samples_captured ∧
    ∀ sw ∈ hw.sw_head, sw.active = true →
      audio_pcm_hw_find_min_in hw ≤ sw.total_hw_samples_acquired :=
  audio_pcm_hw_find_min_in_fold_le hw.sw_head hw.total_samples_captured

theorem audio_pcm_hw_run_in_loop_conv_le (getSizeIn : Nat → Nat → Nat)
    (bpf convSize : Nat) (Hbe : ∀ s r, getSizeIn s r ≤ r) (hbpf : 0 < bpf) :
    ∀ fuel step convPos samples conv, samples < WSIZE →
      (audio_pcm_hw_run_in_loop getSizeIn bpf convSize fuel step convPos
          samples conv).1
        ≤ conv + samples := by
  intro fuel
  induction fuel with
  | zero =>
    intro step convPos samples conv _
    simp [audio_pcm_hw_run_in_loop]
  | succ n ih =>
    intro step convPos samples conv hs
    simp only [audio_pcm_hw_run_in_loop]
    split
    · omega
    · split
      · omega
      · generalize hp : min (getSizeIn step (samples * bpf) / bpf)
          (convSize - convPos) = p
        have hsz := Hbe step (samples * bpf)
        have hdiv : getSizeIn step (samples * bpf) / bpf ≤ samples := by
          calc getSizeIn step (samples * bpf) / bpf
              ≤ samples * bpf / bpf := Nat.div_le_div_right hsz
            _ = samples := Nat.mul_div_cancel _ hbpf
        have hproc : p ≤ samples := hp ▸ le_trans (Nat.min_le_left _ _) hdiv
        have hw1 : wsub samples p = samples - p := by
          have h2 : (2:Nat) ^ 64 = 18446744073709551616 := by norm_num
          simp only [wsub, WSIZE, h2] at hs ⊢
          omega
        rw [hw1]
        have := ih (step + 1) ((convPos + p) % convSize) (samples - p)
          (conv + p) (by omega)
        omega

/-- C6 (amended): in a `run_in` pass over an enabled capture hardware voice
with a bounded backend, with `captured` the frames pulled from the backend
and `min` = `audio_pcm_hw_find_min_in` (the minimum acquired counter over
active voices, taken no larger than `total_samples_captured`), the
hardware's `total_samples_captured` increases by exactly `captured - min`,
and every *active* software voice's `total_hw_samples_acquired` decreases
by exactly `min`.  Every attached voice's counter is decremented by `min`
only in size_t (modulo `2^64`) arithmetic: an inactive voice whose counter
is below `min` wraps around instead of decreasing (see the
counterexample). -/
theorem audio_run_in_accounting (getSizeIn : Nat → Nat → Nat) (bpf : Nat)
    (hw : HWVoiceIn) (Hbe : ∀ s r, getSizeIn s r ≤ r) (hbpf : 0 < bpf)
    (hW : hw.total_samples_captured + hw.conv_size < WSIZE)
    (hacq : ∀ sw ∈ hw.sw_head, sw.total_hw_samples_acquired < WSIZE) :
    ((audio_run_in_hw getSizeIn bpf hw).1.total_samples_captured
        + audio_pcm_hw_find_min_in hw
      = hw.total_samples_captured + (audio_run_in_hw getSizeIn bpf hw).2.1) ∧
    ((audio_run_in_hw getSizeIn bpf hw).1.sw_head.length
      = hw.sw_head.length) ∧
    (∀ i (h : i < hw.sw_head.length)
        (h2 : i < (audio_run_in_hw getSizeIn bpf hw).1.sw_head.length),
      (((audio_run_in_hw getSizeIn bpf hw).1.sw_head.get
            ⟨i, h2⟩).total_hw_samples_acquired
        = wsub ((hw.sw_head.get ⟨i, h⟩).total_hw_samples_acquired)
            (audio_pcm_hw_find_min_in hw)) ∧
      ((hw.sw_head.get ⟨i, h⟩).active = true →
        ((audio_run_in_hw getSizeIn bpf hw).1.sw_head.get
              ⟨i, h2⟩).total_hw_samples_acquired
            + audio_pcm_hw_find_min_in hw
          = (hw.sw_head.get ⟨i, h⟩).total_hw_samples_acquired)) := by
  have hmin := audio_pcm_hw_find_min_in_le hw
  have hcap : (audio_run_in_hw getSizeIn bpf hw).2.1 ≤ hw.conv_size := by
    simp only [audio_run_in_hw]
    have := audio_pcm_hw_run_in_loop_conv_le getSizeIn bpf hw.conv_size Hbe
      hbpf (hw.conv_size - (audio_pcm_hw_get_live_in hw).1 + 1) 0 hw.conv_pos
      (hw.conv_size - (audio_pcm_hw_get_live_in hw).1)
      0 (by unfold WSIZE at hW ⊢; omega)
    omega
  refine ⟨?_, ?_, ?_⟩
  · have h2 : (2:Nat) ^ 64 = 18446744073709551616 := by norm_num
    simp only [audio_run_in_hw] at hcap ⊢
    simp only [wsub, WSIZE, h2] at hW ⊢
    omega
  · simp only [audio_run_in_hw, List.length_map]
  · intro i h h2
    have hg : ((audio_run_in_hw getSizeIn bpf hw).1.sw_head.get
          ⟨i, h2⟩).total_hw_samples_acquired
        = wsub ((hw.sw_head.get ⟨i, h⟩).total_hw_samples_acquired)
            (audio_pcm_hw_find_min_in hw) := by
      simp only [audio_run_in_hw] at h2 ⊢
      rw [List.get_map]
    refine ⟨hg, fun hact => ?_⟩
    have hle := hmin.2 _ (List.get_mem hw.sw_head i h) hact
    have hlt := hacq _ (List.get_mem hw.sw_head i h)
    rw [hg]
    have h2' : (2:Nat) ^ 64 = 18446744073709551616 := by norm_num
    simp only [wsub, WSIZE, h2'] at hlt ⊢
    omega

/-- Closed witness for `audio_run_in_accounting`: capture buffer of 100
frames holding 10 live frames, one active voice 40 frames behind and one
stale inactive voice, backend handing over 10 more frames. -/
theorem audio_run_in_accounting_witness :
    ((audio_run_in_hw (fun step r => if step = 0 then min r 10 else 0) 1
        ⟨true, 100, 0, 50, [⟨true, 40, 2 ^ 32, 0⟩, ⟨false, 0, 2 ^ 32, 0⟩]⟩
        ).1.total_samples_captured
        + audio_pcm_hw_find_min_in
            ⟨true, 100, 0, 50, [⟨true, 40, 2 ^ 32, 0⟩, ⟨false, 0, 2 ^ 32, 0⟩]⟩
      = 50 + (audio_run_in_hw (fun step r => if step = 0 then min r 10 else 0)
          1 ⟨true, 100, 0, 50, [⟨true, 40, 2 ^ 32, 0⟩, ⟨false, 0, 2 ^ 32, 0⟩]⟩
          ).2.1) ∧
    ((audio_run_in_hw (fun step r => if step = 0 then min r 10 else 0) 1
        ⟨true, 100, 0, 50, [⟨true, 40, 2 ^ 32, 0⟩, ⟨false, 0, 2 ^ 32, 0⟩]⟩
        ).1.sw_head.length
      = (HWVoiceIn.mk true 100 0 50
          [⟨true, 40, 2 ^ 32, 0⟩, ⟨false, 0, 2 ^ 32, 0⟩]).sw_head.length) ∧
    (∀ i (h : i < (HWVoiceIn.mk true 100 0 50
          [⟨true, 40, 2 ^ 32, 0⟩, ⟨false, 0, 2 ^ 32, 0⟩]).sw_head.length)
        (h2 : i < (audio_run_in_hw (fun step r => if step = 0 then min r 10
            else 0) 1 ⟨true, 100, 0, 50,
            [⟨true, 40, 2 ^ 32, 0⟩, ⟨false, 0, 2 ^ 32, 0⟩]⟩).1.sw_head.length),
      (((audio_run_in_hw (fun step r => if step = 0 then min r 10 else 0) 1
            ⟨true, 100, 0, 50, [⟨true, 40, 2 ^ 32, 0⟩, ⟨false, 0, 2 ^ 32, 0⟩]⟩
            ).1.sw_head.get ⟨i, h2⟩).total_hw_samples_acquired
        = wsub (((HWVoiceIn.mk true 100 0 50
              [⟨true, 40, 2 ^ 32, 0⟩, ⟨false, 0, 2 ^ 32, 0⟩]).sw_head.get
              ⟨i, h⟩).total_hw_samples_acquired)
            (audio_pcm_hw_find_min_in ⟨true, 100, 0, 50,
              [⟨true, 40, 2 ^ 32, 0⟩, ⟨false, 0, 2 ^ 32, 0⟩]⟩)) ∧
      (((HWVoiceIn.mk true 100 0 50
            [⟨true, 40, 2 ^ 32, 0⟩, ⟨false, 0, 2 ^ 32, 0⟩]).sw_head.get
            ⟨i, h⟩).active = true →
        ((audio_run_in_hw (fun step r => if step = 0 then min r 10 else 0) 1
              ⟨true, 100, 0, 50, [⟨true, 40, 2 ^ 32, 0⟩, ⟨false, 0, 2 ^ 32, 0⟩]⟩
              ).1.sw_head.get ⟨i, h2⟩).total_hw_samples_acquired
            + audio_pcm_hw_find_min_in ⟨true, 100, 0, 50,
                [⟨true, 40, 2 ^ 32, 0⟩, ⟨false, 0, 2 ^ 32, 0⟩]⟩
          = ((HWVoiceIn.mk true 100 0 50
              [⟨true, 40, 2 ^ 32, 0⟩, ⟨false, 0, 2 ^ 32, 0⟩]).sw_head.get
              ⟨i, h⟩).total_hw_samples_acquired)) :=
  audio_run_in_accounting (fun step r => if step = 0 then min r 10 else 0) 1
    ⟨true, 100, 0, 50, [⟨true, 40, 2 ^ 32, 0⟩, ⟨false, 0, 2 ^ 32, 0⟩]⟩
    (fun s r => by
      by_cases hs : s = 0
      · simp [hs]
      · simp [hs])
    (by decide) (by decide) (by decide)

/-- C6 counterexample: an attached *inactive* voice whose acquired counter
(0) is below `min` (40) does not decrease by `min`; its size_t counter
wraps around to `2^64 - 40`, i.e. it *increases*.  The hardware holds 50
captured frames, the sole active voice is 40 frames behind, and the backend
delivers 10 new frames. -/
theorem audio_run_in_inactive_wrap_counterexample :
    audio_pcm_hw_find_min_in
        ⟨true, 100, 0, 50, [⟨true, 40, 2 ^ 32, 0⟩, ⟨false, 0, 2 ^ 32, 0⟩]⟩
      = 40 ∧
    ((HWVoiceIn.mk true 100 0 50
        [⟨true, 40, 2 ^ 32, 0⟩, ⟨false, 0, 2 ^ 32, 0⟩]).sw_head.getD 1
        ⟨false, 0, 0, 0⟩).total_hw_samples_acquired = 0 ∧
    ¬(((audio_run_in_hw (fun step r => if step = 0 then min r 10 else 0) 1
          ⟨true, 100, 0, 50, [⟨true, 40, 2 ^ 32, 0⟩, ⟨false, 0, 2 ^ 32, 0⟩]⟩
          ).1.sw_head.getD 1 ⟨false, 0, 0, 0⟩).total_hw_samples_acquired + 40
        = 0) ∧
    ((audio_run_in_hw (fun step r => if step = 0 then min r 10 else 0) 1
        ⟨true, 100, 0, 50, [⟨true, 40, 2 ^ 32, 0⟩, ⟨false, 0, 2 ^ 32, 0⟩]⟩
        ).1.sw_head.getD 1 ⟨false, 0, 0, 0⟩).total_hw_samples_acquired
      > 0 := by
  decide

/-- C9: when a live-sample accounting invariant is found violated (live
count negative or exceeding the buffer capacity), the operation that
detects it — `audio_pcm_hw_get_live_in`, `audio_pcm_sw_get_rpos_in`,
`audio_pcm_sw_read`, `audio_pcm_sw_write`, `audio_get_free`,
`audio_get_avail` — logs the condition (the `true` flag, `audio_bug`'s
path) and returns the safe clamped value 0 with no state change, leaving
the engine running. -/
theorem audio_bug_clamp_returns_zero :
    (∀ hw : HWVoiceIn,
      hw.total_samples_captured - audio_pcm_hw_find_min_in hw > hw.conv_size →
        audio_pcm_hw_get_live_in hw = (0, true)) ∧
    (∀ (hw : HWVoiceIn) (sw : SWVoiceIn),
      ((hw.total_samples_captured : Int) - sw.total_hw_samples_acquired < 0 ∨
        (hw.total_samples_captured : Int) - sw.total_hw_samples_acquired
          > hw.conv_size) →
        audio_pcm_sw_get_rpos_in hw sw = (0, true)) ∧
    (∀ (hw : HWVoiceIn) (sw : SWVoiceIn) (size : Nat),
      wsub hw.total_samples_captured sw.total_hw_samples_acquired
          > hw.conv_size →
        audio_pcm_sw_read hw sw size = (0, sw, true)) ∧
    (∀ (hwSize hwPos : Nat) (sw : SWVoiceOut) (size : Nat),
      sw.total_hw_samples_mixed > hwSize →
        audio_pcm_sw_write hwSize hwPos sw size = (0, sw, true)) ∧
    (∀ (mixSize : Nat) (sw : SWVoiceOut),
      sw.total_hw_samples_mixed > mixSize →
        audio_get_free mixSize sw = (0, true)) ∧
    (∀ (hw : HWVoiceIn) (sw : SWVoiceIn),
      wsub hw.total_samples_captured sw.total_hw_samples_acquired
          > hw.conv_size →
        audio_get_avail hw sw = (0, true)) := by
  refine ⟨fun hw h => ?_, fun hw sw h => ?_, fun hw sw size h => ?_,
    fun hwSize hwPos sw size h => ?_, fun mixSize sw h => ?_,
    fun hw sw h => ?_⟩
  · unfold audio_pcm_hw_get_live_in
    rw [if_pos h]
  · unfold audio_pcm_sw_get_rpos_in
    rw [if_pos h]
  · unfold audio_pcm_sw_read
    rw [if_pos h]
  · unfold audio_pcm_sw_write
    rw [if_pos h]
  · unfold audio_get_free
    rw [if_pos h]
  · unfold audio_get_avail
    rw [if_pos h]

/-- Closed witness for `audio_bug_clamp_returns_zero`: concrete states
violating each invariant. -/
theorem audio_bug_clamp_returns_zero_witness :
    audio_pcm_hw_get_live_in ⟨true, 4, 0, 100, [⟨true, 10, 2 ^ 32, 0⟩]⟩
      = (0, true) ∧
    audio_pcm_sw_get_rpos_in ⟨true, 4, 0, 100, []⟩ ⟨true, 200, 2 ^ 32, 0⟩
      = (0, true) ∧
    audio_pcm_sw_read ⟨true, 4, 0, 100, []⟩ ⟨true, 200, 2 ^ 32, 0⟩ 64
      = (0, ⟨true, 200, 2 ^ 32, 0⟩, true) ∧
    audio_pcm_sw_write 4 0 ⟨true, false, true, 10, 2 ^ 32, 0⟩ 64
      = (0, ⟨true, false, true, 10, 2 ^ 32, 0⟩, true) ∧
    audio_get_free 4 ⟨true, false, true, 10, 2 ^ 32, 0⟩ = (0, true) ∧
    audio_get_avail ⟨true, 4, 0, 100, []⟩ ⟨true, 200, 2 ^ 32, 0⟩ = (0, true) :=
  ⟨audio_bug_clamp_returns_zero.1 _ (by decide),
   audio_bug_clamp_returns_zero.2.1 _ _ (by decide),
   audio_bug_clamp_returns_zero.2.2.1 _ _ 64 (by decide),
   audio_bug_clamp_returns_zero.2.2.2.1 4 0 _ 64 (by decide),
   audio_bug_clamp_returns_zero.2.2.2.2.1 4 _ (by decide),
   audio_bug_clamp_returns_zero.2.2.2.2.2 _ _ (by decide)⟩

/-! ## Playback hardware voice, capture sinks and the run loop
(audio.c:386-497, 623-660, 844-889, 982-1167, 1241-1286) -/

/-- Structure `CaptureVoiceOut`: a capture sink.  `mix_size`/`mix_pos` are its
`hw.mix_buf` fields, `freq` its `hw.info.freq`, `shift` its
`hw.info.shift`, `sw_head` the attached software voices and `n_cbs` the
number of registered capture callbacks. -/
structure CaptureVoiceOut where
  enabled : Bool
  mix_size : Nat
  mix_pos : Nat
  freq : Nat
  shift : Nat
  sw_head : List SWVoiceOut
  n_cbs : Nat
  deriving Repr, DecidableEq

/-- Structure `SWVoiceCap`: a capture tap of a real playback hardware voice.  In C
the tap's own voice `sc->sw` is an element of `sc->cap->hw.sw_head`; to
break that pointer aliasing the tap's active flag is held here in
`sw_active`, and `cap.sw_head` lists the sink's *other* attached voices. -/
structure SWVoiceCap where
  sw_active : Bool
  cap : CaptureVoiceOut
  deriving Repr, DecidableEq

/-- Structure `HWVoiceOut`: playback hardware voice fields used by the claims. -/
structure HWVoiceOut where
  enabled : Bool
  pending_disable : Bool
  mix_size : Nat
  mix_pos : Nat
  shift : Nat
  sw_head : List SWVoiceOut
  cap_head : List SWVoiceCap
  deriving Repr, DecidableEq

/-- Model of `audio_notify_capture` (audio.c:386-396): one notification per
registered callback, in list order. -/
def audio_notify_capture (n_cbs : Nat) (enable : Bool) : List AudEvent :=
  (List.range n_cbs).map (fun k => AudEvent.capNotify k enable)

/-- Model of `audio_capture_maybe_changed` (audio.c:398-406): notify each callback
exactly when the stored enabled flag differs from the new state. -/
def audio_capture_maybe_changed (cap : CaptureVoiceOut) (enabled : Bool) :
    CaptureVoiceOut × List AudEvent :=
  if cap.enabled ≠ enabled then
    ({ cap with enabled := enabled }, audio_notify_capture cap.n_cbs enabled)
  else (cap, [])

/-- Model of `audio_recalc_and_notify_capture` (audio.c:408-421): recompute the
sink's enabled state from its attached voices' active flags. -/
def audio_recalc_and_notify_capture (cap : CaptureVoiceOut) :
    CaptureVoiceOut × List AudEvent :=
  audio_capture_maybe_changed cap (cap.sw_head.any (fun sw => sw.active))

/-- The same recalculation `audio_recalc_and_notify_capture` as seen from a tap: the tap's own
voice flag participates in the recomputation alongside the sink's other
voices. -/
def audio_recalc_tap (sc : SWVoiceCap) : SWVoiceCap × List AudEvent :=
  let r := audio_capture_maybe_changed sc.cap
    (sc.sw_active || sc.cap.sw_head.any (fun sw => sw.active))
  ({ sc with cap := r.1 }, r.2)

/-- The body of the `audio_attach_capture` loop (audio.c:457-495) for one
registered sink: create a tap voice with `active = hw->enabled`, a no-op
converter and rate conversion from the hardware rate `hw_freq` to the
sink's rate, prepend it to the sink's voice list, and notify when it lands
active.  Returns (new tap, updated sink, events). -/
def audio_attach_capture_one (hw_enabled : Bool) (hw_freq : Nat)
    (cap : CaptureVoiceOut) : SWVoiceCap × CaptureVoiceOut × List AudEvent :=
  let sw : SWVoiceOut :=
    { active := hw_enabled, empty := true, has_cb := false,
      total_hw_samples_mixed := 0,
      ratio := (cap.freq <<< 32) / hw_freq, shift := 0 }
  let cap1 := { cap with sw_head := sw :: cap.sw_head }
  if sw.active then
    let r := audio_capture_maybe_changed cap1 true
    (⟨sw.active, r.1⟩, r.1, r.2)
  else (⟨sw.active, cap1⟩, cap1, [])

/-- One step of `audio_detach_capture` (audio.c:423-449): remove the tap
voice at index `i` from its sink's list; when it was active, recompute and
notify the sink's state. -/
def audio_detach_capture_one (cap : CaptureVoiceOut) (i : Nat) :
    CaptureVoiceOut × List AudEvent :=
  let was_active := (cap.sw_head.getD i ⟨false, true, false, 0, 0, 0⟩).active
  let cap1 := { cap with sw_head := cap.sw_head.eraseIdx i }
  if was_active then audio_recalc_and_notify_capture cap1 else (cap1, [])

/-- The capture-tap propagation loop of `AUD_set_active_out`
(audio.c:881-886) for one tap: `sc->sw.active = hw->enabled`, and when the
hardware is enabled, `audio_capture_maybe_changed (sc->cap, 1)`. -/
def audio_sc_set_active (hw_enabled : Bool) (sc : SWVoiceCap) :
    SWVoiceCap × List AudEvent :=
  let sc1 := { sc with sw_active := hw_enabled }
  if hw_enabled then
    let r := audio_capture_maybe_changed sc1.cap true
    ({ sc1 with cap := r.1 }, r.2)
  else (sc1, [])

/-- The deferred-disable propagation of `audio_run_out` (audio.c:1092-1095)
for one tap: `sc->sw.active = 0` then recompute and notify the sink. -/
def audio_sc_disable (sc : SWVoiceCap) : SWVoiceCap × List AudEvent :=
  audio_recalc_tap { sc with sw_active := false }

/-- Model of `audio_pcm_hw_find_min_out` (audio.c:623-638): minimum mixed counter
over the live voices (active or not-yet-empty), starting from `SIZE_MAX`,
and the number of live voices. -/
def audio_pcm_hw_find_min_out (l : List SWVoiceOut) : Nat × Nat :=
  l.foldl (fun mn sw =>
    if sw.active || !sw.empty then
      (min mn.1 sw.total_hw_samples_mixed, mn.2 + 1)
    else mn) (SIZE_MAX, 0)

/-- Model of `audio_pcm_hw_get_live_out` (audio.c:640-660): (live, nb_live, logged);
clamps to 0 with a log when `live` exceeds the mix buffer size. -/
def audio_pcm_hw_get_live_out (mixSize : Nat) (l : List SWVoiceOut) :
    Nat × Nat × Bool :=
  let r := audio_pcm_hw_find_min_out l
  if r.2 ≠ 0 then
    if r.1 > mixSize then (0, r.2, true) else (r.1, r.2, false)
  else (0, 0, false)

/-- Model of `AUD_set_active_out` (audio.c:844-889) on the voice at index `i`;
`vm_running` comes from the audio state.  Timer rescheduling is not
modelled.  Returns (updated hw, events). -/
def AUD_set_active_out (vm_running : Bool) (hw : HWVoiceOut) (i : Nat)
    (onv : Bool) : HWVoiceOut × List AudEvent :=
  match hw.sw_head.get? i with
  | none => (hw, [])
  | some sw =>
    if sw.active = onv then (hw, [])
    else
      let st : HWVoiceOut × List AudEvent :=
        if onv then
          if !hw.enabled then
            ({ hw with pending_disable := false, enabled := true },
             if vm_running then [AudEvent.ctlOut true] else [])
          else ({ hw with pending_disable := false }, [])
        else
          if hw.enabled then
            ({ hw with
                pending_disable :=
                  decide ((hw.sw_head.countP (fun sw => sw.active)) = 1) },
             [])
          else (hw, [])
      let hw1 := st.1
      let caps := hw1.cap_head.map (audio_sc_set_active hw1.enabled)
      let hw2 := { hw1 with
        cap_head := caps.map (fun c => c.1),
        sw_head := hw1.sw_head.set i { sw with active := onv } }
      (hw2, st.2 ++ (caps.map (fun c => c.2)).flatten)

/-- Model of `audio_pcm_hw_run_out` (audio.c:1020-1043): the backend drain loop.
`getSize step` is the byte size from `get_buffer_out` and `put step bytes`
the byte count accepted by `put_buffer_out` at that call.  Arguments after
the fuel: `step pos live clipped`; returns (clipped, pos).  `live -= proc`
is size_t arithmetic, hence `wsub`. -/
def audio_pcm_hw_run_out_loop (getSize : Nat → Nat) (put : Nat → Nat → Nat)
    (shift mixSize : Nat) : Nat → Nat → Nat → Nat → Nat → Nat × Nat
  | 0, _, pos, _, clipped => (clipped, pos)
  | fuel + 1, step, pos, live, clipped =>
    if live = 0 then (clipped, pos)
    else
      let size := getSize step
      let decr := min (size >>> shift) live
      let proc := (put step (decr <<< shift)) >>> shift
      let live2 := wsub live proc
      let clipped2 := clipped + proc
      let pos2 := (pos + proc) % mixSize
      if proc = 0 ∨ proc < decr then (clipped2, pos2)
      else audio_pcm_hw_run_out_loop getSize put shift mixSize fuel (step + 1)
        pos2 live2 clipped2

/-- The per-voice decrement/callback loop of `audio_run_out`
(audio.c:1128-1153).  `played` is clamped per voice by the `audio_bug`
branch, and the clamped value carries to the following voices.  Returns
(voices, events, cleanup_required). -/
def audio_run_out_decr (mixSize : Nat) :
    Nat → List SWVoiceOut → List SWVoiceOut × List AudEvent × Bool
  | _, [] => ([], [], false)
  | played, sw :: rest =>
    if !sw.active && sw.empty then
      let r := audio_run_out_decr mixSize played rest
      (sw :: r.1, r.2.1, r.2.2)
    else
      let played2 := min played sw.total_hw_samples_mixed
      let mixed2 := sw.total_hw_samples_mixed - played2
      let sw2 := { sw with
        total_hw_samples_mixed := mixed2,
        empty := if mixed2 = 0 then true else sw.empty }
      let cleanup0 := decide (mixed2 = 0) && !sw.active && !sw.has_cb
      let ev0 :=
        if sw2.active then
          if (audio_get_free mixSize sw2).1 > 0 then
            [AudEvent.swCallback (audio_get_free mixSize sw2).1]
          else []
        else []
      let r := audio_run_out_decr mixSize played2 rest
      (sw2 :: r.1, ev0 ++ r.2.1, cleanup0 || r.2.2)

/-- One pass of the mixeng path of `audio_run_out` (audio.c:1070-1167) over
one enabled playback hardware voice.  Returns (updated hw, events,
played).  `audio_capture_mix_and_clear` touches only sample data and the
tap voices' internal mix counters, which are not modelled; `ts_helper` is
not modelled. -/
def audio_run_out_hw (getSize : Nat → Nat) (put : Nat → Nat → Nat)
    (hw : HWVoiceOut) : HWVoiceOut × List AudEvent × Nat :=
  let fm := audio_pcm_hw_find_min_out hw.sw_head
  let gl := audio_pcm_hw_get_live_out hw.mix_size hw.sw_head
  let live := if fm.2 = 0 then 0 else gl.1
  if live > hw.mix_size then (hw, [], 0)
  else if hw.pending_disable && fm.2 = 0 then
    let caps := hw.cap_head.map (fun sc => audio_sc_disable sc)
    ({ hw with
        enabled := false,
        pending_disable := false,
        cap_head := caps.map (fun c => c.1) },
     AudEvent.ctlOut false :: (caps.map (fun c => c.2)).flatten, 0)
  else if live = 0 then
    let evs := hw.sw_head.foldr (fun sw acc =>
      (if sw.active then
        (if (audio_get_free hw.mix_size sw).1 > 0 then
          [AudEvent.swCallback (audio_get_free hw.mix_size sw).1]
        else [])
      else []) ++ acc) []
    (hw, evs, 0)
  else
    let rp := audio_pcm_hw_run_out_loop getSize put hw.shift hw.mix_size
      (live + 1) 0 hw.mix_pos live 0
    let played := rp.1
    let pos2 := if rp.2 ≥ hw.mix_size then 0 else rp.2
    let dec := audio_run_out_decr hw.mix_size played hw.sw_head
    let sws := if dec.2.2 then
        dec.1.filter (fun sw => sw.active || sw.has_cb)
      else dec.1
    ({ hw with mix_pos := pos2, sw_head := sws }, dec.2.1, played)

/-- The fan-out loop of `audio_run_capture` (audio.c:1252-1268): clip each
wrap-safe chunk, deliver it to every registered callback, advance `rpos`.
Arguments after the fuel: `rpos live`; returns (rpos, events). -/
def audio_run_capture_loop (n_cbs shift mixSize : Nat) :
    Nat → Nat → Nat → Nat × List AudEvent
  | 0, rpos, _ => (rpos, [])
  | fuel + 1, rpos, live =>
    if live = 0 then (rpos, [])
    else
      let left := mixSize - rpos
      let to_capture := min live left
      let evs := (List.range n_cbs).map
        (fun k => AudEvent.capData k (to_capture <<< shift))
      let r := audio_run_capture_loop n_cbs shift mixSize fuel
        ((rpos + to_capture) % mixSize) (live - to_capture)
      (r.1, evs ++ r.2)

/-- The per-voice decrement loop of `audio_run_capture` (audio.c:1271-1284):
like `audio_run_out_decr` with `captured` in place of `played` (same
clamp-and-carry), but `empty` is recomputed unconditionally and no
callbacks are signalled. -/
def audio_run_capture_decr : Nat → List SWVoiceOut → List SWVoiceOut
  | _, [] => []
  | captured, sw :: rest =>
    if !sw.active && sw.empty then sw :: audio_run_capture_decr captured rest
    else
      let c2 := min captured sw.total_hw_samples_mixed
      { sw with
        total_hw_samples_mixed := sw.total_hw_samples_mixed - c2,
        empty := decide (sw.total_hw_samples_mixed - c2 = 0) } ::
        audio_run_capture_decr c2 rest

/-- One sink's pass of `audio_run_capture` (audio.c:1245-1285). -/
def audio_run_capture_cap (cap : CaptureVoiceOut) :
    CaptureVoiceOut × List AudEvent :=
  let gl := audio_pcm_hw_get_live_out cap.mix_size cap.sw_head
  let captured := gl.1
  let r := audio_run_capture_loop cap.n_cbs cap.shift cap.mix_size
    (captured + 1) cap.mix_pos captured
  let sws := audio_run_capture_decr captured cap.sw_head
  ({ cap with mix_pos := r.1, sw_head := sws }, r.2)

/-- Model of `audio_generic_put_buffer_out_nowrite` (audio.c:1365-1375): the
backend push path's emulated-buffer position update.  Returns
(bytes accepted, pending_emul, pos_emul). -/
def audio_generic_put_buffer_out_nowrite (pos_emul pending_emul size_emul
    bytes : Nat) : Nat × Nat × Nat :=
  (bytes, pending_emul + bytes, (pos_emul + bytes) % size_emul)

/-- Model of `AUD_write` (audio.c:795-815).  `mixeng` is the per-direction audiodev
option, `backendWrite` models `pcm_ops->write`.  Returns (bytes, voice). -/
def AUD_write (mixeng : Bool) (backendWrite : Nat → Nat) (hwEnabled : Bool)
    (hwSize hwPos : Nat) (sw : Option SWVoiceOut) (size : Nat) :
    Nat × Option SWVoiceOut :=
  match sw with
  | none => (size, none)
  | some sw =>
    if !hwEnabled then (0, some sw)
    else if mixeng then
      let r := audio_pcm_sw_write hwSize hwPos sw size
      (r.1, some r.2.1)
    else (backendWrite size, some sw)

/-- Model of `AUD_read` (audio.c:817-837), symmetric to `AUD_write`. -/
def AUD_read (mixeng : Bool) (backendRead : Nat → Nat) (hw : HWVoiceIn)
    (sw : Option SWVoiceIn) (size : Nat) : Nat × Option SWVoiceIn :=
  match sw with
  | none => (size, none)
  | some sw =>
    if !hw.enabled then (0, some sw)
    else if mixeng then
      let r := audio_pcm_sw_read hw sw size
      (r.1, some r.2.1)
    else (backendRead size, some sw)

theorem audio_pcm_hw_find_min_out_fold_le (l : List SWVoiceOut) :
    ∀ init : Nat × Nat,
      ((l.foldl (fun mn sw =>
          if sw.active || !sw.empty then
            (min mn.1 sw.total_hw_samples_mixed, mn.2 + 1)
          else mn) init).1 ≤ init.1) ∧
      (∀ sw ∈ l, (sw.active || !sw.empty) = true →
        (l.foldl (fun mn sw =>
            if sw.active || !sw.empty then
              (min mn.1 sw.total_hw_samples_mixed, mn.2 + 1)
            else mn) init).1 ≤ sw.total_hw_samples_mixed) := by
  induction l with
  | nil => intro init; exact ⟨le_refl _, by simp⟩
  | cons sw l ih =>
    intro init
    simp only [List.foldl_cons]
    have h := ih (if sw.active || !sw.empty then
      (min init.1 sw.total_hw_samples_mixed, init.2 + 1) else init)
    have hstep : (if sw.active || !sw.empty then
        (min init.1 sw.total_hw_samples_mixed, init.2 + 1) else init).1
        ≤ init.1 := by split <;> simp
    refine ⟨le_trans h.1 hstep, ?_⟩
    intro sw2 hmem hact
    rcases List.mem_cons.mp hmem with rfl | hmem2
    · refine le_trans h.1 ?_
      rw [hact]
      simp
    · exact h.2 sw2 hmem2 hact

theorem audio_pcm_hw_find_min_out_le (l : List SWVoiceOut) :
    ∀ sw ∈ l, (sw.active || !sw.empty) = true →
      (audio_pcm_hw_find_min_out l).1 ≤ sw.total_hw_samples_mixed :=
  (audio_pcm_hw_find_min_out_fold_le l (SIZE_MAX, 0)).2

theorem audio_pcm_hw_find_min_out_fold_nb (l : List SWVoiceOut) :
    ∀ init : Nat × Nat,
      (init.2 ≤ (l.foldl (fun mn sw =>
          if sw.active || !sw.empty then
            (min mn.1 sw.total_hw_samples_mixed, mn.2 + 1)
          else mn) init).2) ∧
      (∀ sw ∈ l, (sw.active || !sw.empty) = true →
        init.2 + 1 ≤ (l.foldl (fun mn sw =>
            if sw.active || !sw.empty then
              (min mn.1 sw.total_hw_samples_mixed, mn.2 + 1)
            else mn) init).2) := by
  induction l with
  | nil => intro init; exact ⟨le_refl _, by simp⟩
  | cons sw l ih =>
    intro init
    simp only [List.foldl_cons]
    have h := ih (if sw.active || !sw.empty then
      (min init.1 sw.total_hw_samples_mixed, init.2 + 1) else init)
    have hstep : init.2 ≤ (if sw.active || !sw.empty then
        (min init.1 sw.total_hw_samples_mixed, init.2 + 1) else init).2 := by
      split <;> simp
    refine ⟨le_trans hstep h.1, ?_⟩
    intro sw2 hmem hact
    rcases List.mem_cons.mp hmem with rfl | hmem2
    · refine le_trans ?_ h.1
      rw [hact]
      simp
    · exact le_trans (by omega) (h.2 sw2 hmem2 hact)

/-- When `find_min_out` reports zero live voices, no attached voice is
live. -/
theorem audio_pcm_hw_find_min_out_nb_zero (l : List SWVoiceOut)
    (h : (audio_pcm_hw_find_min_out l).2 = 0) :
    ∀ sw ∈ l, (sw.active || !sw.empty) = false := by
  intro sw hmem
  by_contra hne
  have hact : (sw.active || !sw.empty) = true := by
    cases hb : (sw.active || !sw.empty) with
    | false => exact absurd hb hne
    | true => rfl
  have := (audio_pcm_hw_find_min_out_fold_nb l (SIZE_MAX, 0)).2 sw hmem hact
  unfold audio_pcm_hw_find_min_out at h
  omega

theorem audio_pcm_hw_get_live_out_le (mixSize : Nat) (l : List SWVoiceOut) :
    (audio_pcm_hw_get_live_out mixSize l).1 ≤ mixSize := by
  unfold audio_pcm_hw_get_live_out
  dsimp only
  split
  · split
    · simp
    · simp only
      omega
  · simp

theorem audio_pcm_hw_run_out_loop_clipped_le (getSize : Nat → Nat)
    (put : Nat → Nat → Nat) (shift mixSize : Nat)
    (Hput : ∀ s b, put s b ≤ b) :
    ∀ fuel step pos live clipped, live < WSIZE →
      (audio_pcm_hw_run_out_loop getSize put shift mixSize fuel step pos live
          clipped).1
        ≤ clipped + live := by
  intro fuel
  induction fuel with
  | zero =>
    intro step pos live clipped _
    simp [audio_pcm_hw_run_out_loop]
  | succ n ih =>
    intro step pos live clipped hl
    simp only [audio_pcm_hw_run_out_loop]
    split
    · omega
    · generalize hd : min (getSize step >>> shift) live = decr
      have hdle : decr ≤ live := hd ▸ Nat.min_le_right _ _
      have hple : put step (decr <<< shift) >>> shift ≤ decr := by
        have h1 := Hput step (decr <<< shift)
        calc put step (decr <<< shift) >>> shift
            ≤ (decr <<< shift) >>> shift := by
              simp only [Nat.shiftRight_eq_div_pow]
              exact Nat.div_le_div_right h1
          _ = decr := by
              simp only [Nat.shiftLeft_eq, Nat.shiftRight_eq_div_pow]
              exact Nat.mul_div_cancel _ (by positivity)
      generalize hq : put step (decr <<< shift) >>> shift = proc at hple
      have hw1 : wsub live proc = live - proc := by
        have h2 : (2:Nat) ^ 64 = 18446744073709551616 := by norm_num
        simp only [wsub, WSIZE, h2] at hl ⊢
        omega
      rw [hw1]
      split
      · omega
      · have := ih (step + 1) ((pos + proc) % mixSize) (live - proc)
          (clipped + proc) (by omega)
        omega

/-- When `played` does not exceed any live voice's counter (as `run_out`
guarantees, since `played ≤ live = min`), the decrement loop's clamp never
fires: each live voice is decremented by exactly `played` and marked empty
on reaching zero, and the others are untouched. -/
theorem audio_run_out_decr_spec (mixSize : Nat) (P : Nat) :
    ∀ l : List SWVoiceOut,
      (∀ sw ∈ l, (sw.active || !sw.empty) = true →
        P ≤ sw.total_hw_samples_mixed) →
      (audio_run_out_decr mixSize P l).1 = l.map (fun sw =>
        if sw.active || !sw.empty then
          { sw with
            total_hw_samples_mixed := sw.total_hw_samples_mixed - P,
            empty := if sw.total_hw_samples_mixed - P = 0 then true
              else sw.empty }
        else sw) := by
  intro l
  induction l with
  | nil => intro _; rfl
  | cons sw rest ih =>
    intro H
    simp only [audio_run_out_decr, List.map_cons]
    by_cases hlive : (sw.active || !sw.empty) = true
    · have hskip : (!sw.active && sw.empty) = false := by
        cases ha : sw.active <;> cases he : sw.empty <;>
          simp [ha, he] at hlive ⊢
      rw [hskip]
      simp only [Bool.false_eq_true, if_false, hlive, if_true]
      have hP : P ≤ sw.total_hw_samples_mixed := H sw (List.mem_cons_self sw rest) hlive
      have hmin : min P sw.total_hw_samples_mixed = P := Nat.min_eq_left hP
      rw [hmin]
      have := ih (fun sw2 hm ha => H sw2 (List.mem_cons_of_mem _ hm) ha)
      simp only [this]
    · have hskip : (!sw.active && sw.empty) = true := by
        cases ha : sw.active <;> cases he : sw.empty <;>
          simp [ha, he] at hlive ⊢
      rw [hskip]
      simp only [if_true]
      have hlive2 : (sw.active || !sw.empty) = false := by
        cases hb : (sw.active || !sw.empty) with
        | false => rfl
        | true => exact absurd hb hlive
      simp only [hlive2, Bool.false_eq_true, if_false]
      have := ih (fun sw2 hm ha => H sw2 (List.mem_cons_of_mem _ hm) ha)
      simp only [this]

/-- Characterization of one `run_out` pass on the voice list: either the
pass drained nothing and left the voices untouched, or it drained `played`
frames with `played` below every live voice's counter, and updated the list
pointwise. -/
theorem audio_run_out_hw_sw_head_char (getSize : Nat → Nat)
    (put : Nat → Nat → Nat) (hw : HWVoiceOut) (Hput : ∀ s b, put s b ≤ b)
    (Hcb : ∀ sw ∈ hw.sw_head, sw.has_cb = true) (Hsize : hw.mix_size < WSIZE) :
    ((audio_run_out_hw getSize put hw).1.sw_head = hw.sw_head ∧
      (audio_run_out_hw getSize put hw).2.2 = 0) ∨
    (((audio_run_out_hw getSize put hw).1.sw_head = hw.sw_head.map (fun sw =>
        if sw.active || !sw.empty then
          { sw with
            total_hw_samples_mixed := sw.total_hw_samples_mixed
              - (audio_run_out_hw getSize put hw).2.2,
            empty := if sw.total_hw_samples_mixed
                - (audio_run_out_hw getSize put hw).2.2 = 0 then true
              else sw.empty }
        else sw)) ∧
      (∀ sw ∈ hw.sw_head, (sw.active || !sw.empty) = true →
        (audio_run_out_hw getSize put hw).2.2 ≤ sw.total_hw_samples_mixed)) := by
  unfold audio_run_out_hw
  dsimp only
  split
  · -- no live voice: nb_live = 0, live = 0
    split
    · rename_i hgt
      exact absurd hgt (by omega)
    · split
      · exact Or.inl ⟨rfl, rfl⟩
      · split
        · exact Or.inl ⟨rfl, rfl⟩
        · rename_i hne
          exact absurd rfl hne
  · rename_i hnb
    split
    · -- live > mix_size: impossible, get_live_out clamps to the size
      rename_i hgt
      exact absurd hgt (by
        have := audio_pcm_hw_get_live_out_le hw.mix_size hw.sw_head
        omega)
    · split
      · -- pending_disable && nb_live = 0: contradicts nb_live ≠ 0
        rename_i h3
        simp [hnb] at h3
      · split
        · exact Or.inl ⟨rfl, rfl⟩
        · -- the main branch: live = smin ≥ 1 frames handed to the backend
          rename_i h2 h3 h4
          right
          have hfm : (audio_pcm_hw_get_live_out hw.mix_size hw.sw_head).1
              = (audio_pcm_hw_find_min_out hw.sw_head).1 := by
            unfold audio_pcm_hw_get_live_out
            dsimp only
            rw [if_pos hnb]
            split
            · exfalso
              apply h4
              unfold audio_pcm_hw_get_live_out
              dsimp only
              rw [if_pos hnb]
              rename_i hgt
              rw [if_pos hgt]
            · rfl
          set live := (audio_pcm_hw_get_live_out hw.mix_size hw.sw_head).1
            with hlive
          set P := (audio_pcm_hw_run_out_loop getSize put hw.shift
            hw.mix_size (live + 1) 0 hw.mix_pos live 0).1 with hP
          have hPle : P ≤ live := by
            have := audio_pcm_hw_run_out_loop_clipped_le getSize put hw.shift
              hw.mix_size Hput (live + 1) 0 hw.mix_pos live 0 (by omega)
            omega
          have Hbound : ∀ sw ∈ hw.sw_head, (sw.active || !sw.empty) = true →
              P ≤ sw.total_hw_samples_mixed := by
            intro sw hm ha
            have := audio_pcm_hw_find_min_out_le hw.sw_head sw hm ha
            omega
          have hdecr := audio_run_out_decr_spec hw.mix_size P hw.sw_head Hbound
          constructor
          · dsimp only
            split
            · rw [hdecr]
              refine List.filter_eq_self.mpr ?_
              intro sw2 hm2
              rcases List.mem_map.mp hm2 with ⟨sw, hm, rfl⟩
              have hcb := Hcb sw hm
              split <;> simp [hcb]
            · exact hdecr
          · exact Hbound

/-- C1: for an enabled playback hardware voice processed by the run loop
(with a bounded backend, voices carrying callbacks, and the empty-flag
invariant), if `run_out` drains `P` frames from the mix buffer then every
attached software voice that was live (active or not yet empty) has its
`total_hw_samples_mixed` decreased by exactly `min(P, previous value)`
(the subtraction is exact — no counter ever goes below zero), and a voice
whose counter reaches zero has its `empty` flag set. -/
theorem audio_run_out_decrements_live_voices (getSize : Nat → Nat)
    (put : Nat → Nat → Nat) (hw : HWVoiceOut) (Hput : ∀ s b, put s b ≤ b)
    (Hcb : ∀ sw ∈ hw.sw_head, sw.has_cb = true)
    (Hempt : ∀ sw ∈ hw.sw_head, sw.total_hw_samples_mixed = 0 →
      sw.empty = true)
    (Hsize : hw.mix_size < WSIZE) :
    ((audio_run_out_hw getSize put hw).1.sw_head.length
      = hw.sw_head.length) ∧
    ∀ i (h : i < hw.sw_head.length)
        (h2 : i < (audio_run_out_hw getSize put hw).1.sw_head.length),
      ((hw.sw_head.get ⟨i, h⟩).active = true ∨
        (hw.sw_head.get ⟨i, h⟩).empty = false) →
        (((audio_run_out_hw getSize put hw).1.sw_head.get
              ⟨i, h2⟩).total_hw_samples_mixed
          = (hw.sw_head.get ⟨i, h⟩).total_hw_samples_mixed
            - min (audio_run_out_hw getSize put hw).2.2
                (hw.sw_head.get ⟨i, h⟩).total_hw_samples_mixed) ∧
        (((audio_run_out_hw getSize put hw).1.sw_head.get
              ⟨i, h2⟩).total_hw_samples_mixed
            + min (audio_run_out_hw getSize put hw).2.2
                (hw.sw_head.get ⟨i, h⟩).total_hw_samples_mixed
          = (hw.sw_head.get ⟨i, h⟩).total_hw_samples_mixed) ∧
        (((audio_run_out_hw getSize put hw).1.sw_head.get
              ⟨i, h2⟩).total_hw_samples_mixed = 0 →
          ((audio_run_out_hw getSize put hw).1.sw_head.get ⟨i, h2⟩).empty
            = true) := by
  rcases audio_run_out_hw_sw_head_char getSize put hw Hput Hcb Hsize with
    ⟨hlist, hP⟩ | ⟨hlist, hbound⟩
  · rw [hlist, hP]
    refine ⟨rfl, ?_⟩
    intro i h h2 _
    refine ⟨by simp, by simp, ?_⟩
    intro hz
    exact Hempt _ (List.get_mem hw.sw_head i h) hz
  · rw [hlist]
    refine ⟨List.length_map _ _, ?_⟩
    intro i h h2 hlive
    have hcond : ((hw.sw_head.get ⟨i, h⟩).active
        || !(hw.sw_head.get ⟨i, h⟩).empty) = true := by
      rcases hlive with ha | he
      · simp only [List.get_eq_getElem] at ha ⊢
        simp [ha]
      · simp only [List.get_eq_getElem] at he ⊢
        simp [he]
    have hb := hbound _ (List.get_mem hw.sw_head i h) hcond
    have hmin : min (audio_run_out_hw getSize put hw).2.2
        (hw.sw_head.get ⟨i, h⟩).total_hw_samples_mixed
        = (audio_run_out_hw getSize put hw).2.2 := Nat.min_eq_left hb
    have hget : (hw.sw_head.map (fun sw =>
        if sw.active || !sw.empty then
          { sw with
            total_hw_samples_mixed := sw.total_hw_samples_mixed
              - (audio_run_out_hw getSize put hw).2.2,
            empty := if sw.total_hw_samples_mixed
                - (audio_run_out_hw getSize put hw).2.2 = 0 then true
              else sw.empty }
        else sw)).get ⟨i, h2⟩ =
        (fun sw =>
        if sw.active || !sw.empty then
          { sw with
            total_hw_samples_mixed := sw.total_hw_samples_mixed
              - (audio_run_out_hw getSize put hw).2.2,
            empty := if sw.total_hw_samples_mixed
                - (audio_run_out_hw getSize put hw).2.2 = 0 then true
              else sw.empty }
        else sw) (hw.sw_head.get ⟨i, h⟩) := List.get_map ..
    rw [hget]
    simp only [hcond, if_true, hmin]
    refine ⟨by trivial, by omega, ?_⟩
    intro hzero
    simp only [List.get_eq_getElem] at hzero
    simp [hzero]

/-- Closed witness for `audio_run_out_decrements_live_voices`: the spec's
scenario — capacity 4096, one active voice with 2048 frames mixed, backend
draining 1000 frames per pass. -/
theorem audio_run_out_decrements_live_voices_witness :
    ((audio_run_out_hw (fun _ => 16384) (fun _ b => min b 4000)
        ⟨true, false, 4096, 0, 2, [⟨true, false, true, 2048, 2 ^ 32, 2⟩], []⟩
        ).1.sw_head.length
      = (HWVoiceOut.mk true false 4096 0 2
          [⟨true, false, true, 2048, 2 ^ 32, 2⟩] []).sw_head.length) ∧
    ∀ i (h : i < (HWVoiceOut.mk true false 4096 0 2
          [⟨true, false, true, 2048, 2 ^ 32, 2⟩] []).sw_head.length)
        (h2 : i < (audio_run_out_hw (fun _ => 16384) (fun _ b => min b 4000)
          ⟨true, false, 4096, 0, 2, [⟨true, false, true, 2048, 2 ^ 32, 2⟩], []⟩
          ).1.sw_head.length),
      (((HWVoiceOut.mk true false 4096 0 2
            [⟨true, false, true, 2048, 2 ^ 32, 2⟩] []).sw_head.get
            ⟨i, h⟩).active = true ∨
        ((HWVoiceOut.mk true false 4096 0 2
            [⟨true, false, true, 2048, 2 ^ 32, 2⟩] []).sw_head.get
            ⟨i, h⟩).empty = false) →
        (((audio_run_out_hw (fun _ => 16384) (fun _ b => min b 4000)
              ⟨true, false, 4096, 0, 2, [⟨true, false, true, 2048, 2 ^ 32, 2⟩],
                []⟩).1.sw_head.get ⟨i, h2⟩).total_hw_samples_mixed
          = ((HWVoiceOut.mk true false 4096 0 2
              [⟨true, false, true, 2048, 2 ^ 32, 2⟩] []).sw_head.get
              ⟨i, h⟩).total_hw_samples_mixed
            - min (audio_run_out_hw (fun _ => 16384) (fun _ b => min b 4000)
                ⟨true, false, 4096, 0, 2,
                  [⟨true, false, true, 2048, 2 ^ 32, 2⟩], []⟩).2.2
                ((HWVoiceOut.mk true false 4096 0 2
                  [⟨true, false, true, 2048, 2 ^ 32, 2⟩] []).sw_head.get
                  ⟨i, h⟩).total_hw_samples_mixed) ∧
        (((audio_run_out_hw (fun _ => 16384) (fun _ b => min b 4000)
              ⟨true, false, 4096, 0, 2, [⟨true, false, true, 2048, 2 ^ 32, 2⟩],
                []⟩).1.sw_head.get ⟨i, h2⟩).total_hw_samples_mixed
            + min (audio_run_out_hw (fun _ => 16384) (fun _ b => min b 4000)
                ⟨true, false, 4096, 0, 2,
                  [⟨true, false, true, 2048, 2 ^ 32, 2⟩], []⟩).2.2
                ((HWVoiceOut.mk true false 4096 0 2
                  [⟨true, false, true, 2048, 2 ^ 32, 2⟩] []).sw_head.get
                  ⟨i, h⟩).total_hw_samples_mixed
          = ((HWVoiceOut.mk true false 4096 0 2
              [⟨true, false, true, 2048, 2 ^ 32, 2⟩] []).sw_head.get
              ⟨i, h⟩).total_hw_samples_mixed) ∧
        (((audio_run_out_hw (fun _ => 16384) (fun _ b => min b 4000)
              ⟨true, false, 4096, 0, 2, [⟨true, false, true, 2048, 2 ^ 32, 2⟩],
                []⟩).1.sw_head.get ⟨i, h2⟩).total_hw_samples_mixed = 0 →
          ((audio_run_out_hw (fun _ => 16384) (fun _ b => min b 4000)
              ⟨true, false, 4096, 0, 2, [⟨true, false, true, 2048, 2 ^ 32, 2⟩],
                []⟩).1.sw_head.get ⟨i, h2⟩).empty = true) :=
  audio_run_out_decrements_live_voices (fun _ => 16384) (fun _ b => min b 4000)
    ⟨true, false, 4096, 0, 2, [⟨true, false, true, 2048, 2 ^ 32, 2⟩], []⟩
    (fun _ b => Nat.min_le_left _ _) (by decide) (by decide) (by decide)

theorem audio_capture_maybe_changed_enabled (cap : CaptureVoiceOut)
    (e : Bool) : (audio_capture_maybe_changed cap e).1.enabled = e := by
  unfold audio_capture_maybe_changed
  split
  · rfl
  · rename_i hne
    simp only [ne_eq, not_not] at hne
    exact hne

theorem audio_capture_maybe_changed_no_ctl (cap : CaptureVoiceOut) (e : Bool) :
    ∀ ev ∈ (audio_capture_maybe_changed cap e).2, ∀ b,
      ev ≠ AudEvent.ctlOut b := by
  intro ev hm b
  unfold audio_capture_maybe_changed at hm
  split at hm
  · unfold audio_notify_capture at hm
    rcases List.mem_map.mp hm with ⟨k, _, rfl⟩
    simp
  · simp at hm

theorem audio_sc_set_active_no_ctl (he : Bool) (sc : SWVoiceCap) :
    ∀ ev ∈ (audio_sc_set_active he sc).2, ∀ b, ev ≠ AudEvent.ctlOut b := by
  intro ev hm b
  unfold audio_sc_set_active at hm
  dsimp only at hm
  split at hm
  · exact audio_capture_maybe_changed_no_ctl _ _ ev hm b
  · simp at hm

theorem mem_if_cb {c1 c2 : Prop} [Decidable c1] [Decidable c2] {n : Nat}
    {ev : AudEvent}
    (hm : ev ∈ (if c1 then (if c2 then [AudEvent.swCallback n] else [])
      else [])) : ev = AudEvent.swCallback n := by
  by_cases h1 : c1
  · rw [if_pos h1] at hm
    by_cases h2 : c2
    · rw [if_pos h2] at hm
      exact List.mem_singleton.mp hm
    · rw [if_neg h2] at hm
      simp at hm
  · rw [if_neg h1] at hm
    simp at hm

theorem audio_run_out_decr_no_ctl (mixSize : Nat) :
    ∀ P (l : List SWVoiceOut) ev,
      ev ∈ (audio_run_out_decr mixSize P l).2.1 → ∀ b,
        ev ≠ AudEvent.ctlOut b := by
  intro P l
  induction l generalizing P with
  | nil => intro ev hm; simp [audio_run_out_decr] at hm
  | cons sw rest ih =>
    intro ev hm b
    simp only [audio_run_out_decr] at hm
    split at hm
    · exact ih P ev hm b
    · dsimp only at hm
      rcases List.mem_append.mp hm with hm1 | hm2
      · rcases mem_if_cb hm1 with rfl
        simp
      · exact ih _ ev hm2 b

theorem audio_signal_free_no_ctl (mixSize : Nat) (l : List SWVoiceOut) :
    ∀ ev ∈ l.foldr (fun sw acc =>
      (if sw.active then
        (if (audio_get_free mixSize sw).1 > 0 then
          [AudEvent.swCallback (audio_get_free mixSize sw).1]
        else [])
      else []) ++ acc) [], ∀ b, ev ≠ AudEvent.ctlOut b := by
  induction l with
  | nil => intro ev hm; simp at hm
  | cons sw rest ih =>
    intro ev hm b
    simp only [List.foldr_cons] at hm
    rcases List.mem_append.mp hm with hm1 | hm2
    · rcases mem_if_cb hm1 with rfl
      simp
    · exact ih ev hm2 b

theorem audio_sc_disable_sw_active (sc : SWVoiceCap) :
    (audio_sc_disable sc).1.sw_active = false := by
  unfold audio_sc_disable audio_recalc_tap audio_capture_maybe_changed
  all_goals first
  | rfl
  | (split <;> rfl)
  | (dsimp only; split <;> rfl)

theorem audio_sc_disable_cap_enabled (sc : SWVoiceCap) :
    (audio_sc_disable sc).1.cap.enabled
      = sc.cap.sw_head.any (fun sw => sw.active) := by
  unfold audio_sc_disable audio_recalc_tap
  dsimp only
  rw [audio_capture_maybe_changed_enabled]
  simp

/-- C3: `set_active(sw, false)` on the sole active software voice of an
enabled playback hardware voice does not invoke the backend control: it
only sets the pending-disable flag.  The backend `ctl_out(VOICE_DISABLE)`
happens in a `run_out` pass exactly when that pass observes zero live
voices: at that moment the hardware voice is disabled, pending-disable is
cleared, and the disable is propagated to the attached capture taps (each
tap is deactivated and its sink's enabled state recomputed and notified);
a pass that still observes a live voice emits no disable and leaves the
flags alone. -/
theorem audio_set_active_deferred_disable :
    (∀ (vm : Bool) (hw : HWVoiceOut) (i : Nat) (h : i < hw.sw_head.length),
      (hw.sw_head.get ⟨i, h⟩).active = true → hw.enabled = true →
      hw.sw_head.countP (fun sw => sw.active) = 1 →
      (AUD_set_active_out vm hw i false).1.pending_disable = true ∧
      (AUD_set_active_out vm hw i false).1.enabled = true ∧
      ∀ ev ∈ (AUD_set_active_out vm hw i false).2, ∀ b,
        ev ≠ AudEvent.ctlOut b) ∧
    (∀ (getSize : Nat → Nat) (put : Nat → Nat → Nat) (hw : HWVoiceOut),
      hw.pending_disable = true →
      (audio_pcm_hw_find_min_out hw.sw_head).2 = 0 →
      (audio_run_out_hw getSize put hw).1.enabled = false ∧
      (audio_run_out_hw getSize put hw).1.pending_disable = false ∧
      AudEvent.ctlOut false ∈ (audio_run_out_hw getSize put hw).2.1 ∧
      ((audio_run_out_hw getSize put hw).1.cap_head.length
        = hw.cap_head.length) ∧
      ∀ j (hj : j < hw.cap_head.length)
          (hj2 : j < (audio_run_out_hw getSize put hw).1.cap_head.length),
        ((audio_run_out_hw getSize put hw).1.cap_head.get
            ⟨j, hj2⟩).sw_active = false ∧
        ((audio_run_out_hw getSize put hw).1.cap_head.get
            ⟨j, hj2⟩).cap.enabled
          = (hw.cap_head.get ⟨j, hj⟩).cap.sw_head.any (fun sw => sw.active)) ∧
    (∀ (getSize : Nat → Nat) (put : Nat → Nat → Nat) (hw : HWVoiceOut),
      (audio_pcm_hw_find_min_out hw.sw_head).2 ≠ 0 →
      (audio_run_out_hw getSize put hw).1.enabled = hw.enabled ∧
      (audio_run_out_hw getSize put hw).1.pending_disable
        = hw.pending_disable ∧
      ∀ ev ∈ (audio_run_out_hw getSize put hw).2.1, ∀ b,
        ev ≠ AudEvent.ctlOut b) := by
  refine ⟨?_, ?_, ?_⟩
  · intro vm hw i h ha hen hcount
    have hsome : hw.sw_head.get? i = some (hw.sw_head.get ⟨i, h⟩) :=
      List.get?_eq_get h
    unfold AUD_set_active_out
    rw [hsome]
    dsimp only
    rw [if_neg (by rw [ha]; simp)]
    rw [if_neg (by simp)]
    rw [if_pos hen]
    rw [hcount]
    dsimp only
    refine ⟨rfl, hen, ?_⟩
    intro ev hm b
    rcases List.mem_append.mp hm with hm1 | hm2
    · simp at hm1
    · rcases List.mem_flatten.mp hm2 with ⟨s, hs, hev⟩
      rcases List.mem_map.mp hs with ⟨c, hc, rfl⟩
      rcases List.mem_map.mp hc with ⟨sc, hsc, rfl⟩
      exact audio_sc_set_active_no_ctl _ sc ev hev b
  · intro getSize put hw hp hnb
    unfold audio_run_out_hw
    dsimp only
    rw [if_pos hnb]
    rw [if_neg (by omega : ¬ 0 > hw.mix_size)]
    rw [if_pos (by simp [hp, hnb])]
    refine ⟨rfl, rfl, List.mem_cons_self _ _, by simp, ?_⟩
    dsimp only
    intro j hj hj2
    simp only [List.get_eq_getElem, List.map_map, List.getElem_map]
    exact ⟨audio_sc_disable_sw_active _, audio_sc_disable_cap_enabled _⟩
  · intro getSize put hw hnb
    unfold audio_run_out_hw
    dsimp only
    rw [if_neg hnb]
    split
    · refine ⟨rfl, rfl, ?_⟩
      intro ev hm
      simp at hm
    · rw [if_neg (by simp [hnb])]
      split
      · refine ⟨rfl, rfl, ?_⟩
        intro ev hm b
        exact audio_signal_free_no_ctl hw.mix_size hw.sw_head ev hm b
      · refine ⟨rfl, rfl, ?_⟩
        intro ev hm b
        exact audio_run_out_decr_no_ctl hw.mix_size _ hw.sw_head ev hm b

/-- Closed witness for `audio_set_active_deferred_disable` at concrete
states: deactivating the sole active voice, a draining pass with no live
voice and one capture tap, and a pass with a live voice. -/
theorem audio_set_active_deferred_disable_witness :
    ((AUD_set_active_out true
        ⟨true, false, 4096, 0, 2, [⟨true, false, true, 100, 2 ^ 32, 2⟩], []⟩
        0 false).1.pending_disable = true ∧
      (AUD_set_active_out true
        ⟨true, false, 4096, 0, 2, [⟨true, false, true, 100, 2 ^ 32, 2⟩], []⟩
        0 false).1.enabled = true ∧
      ∀ ev ∈ (AUD_set_active_out true
        ⟨true, false, 4096, 0, 2, [⟨true, false, true, 100, 2 ^ 32, 2⟩], []⟩
        0 false).2, ∀ b, ev ≠ AudEvent.ctlOut b) ∧
    ((audio_run_out_hw (fun _ => 0) (fun _ b => b)
        ⟨true, true, 4096, 0, 2, [],
          [⟨true, ⟨true, 4096, 0, 44100, 2, [], 1⟩⟩]⟩).1.enabled = false ∧
      (audio_run_out_hw (fun _ => 0) (fun _ b => b)
        ⟨true, true, 4096, 0, 2, [],
          [⟨true, ⟨true, 4096, 0, 44100, 2, [], 1⟩⟩]⟩).1.pending_disable
        = false ∧
      AudEvent.ctlOut false ∈ (audio_run_out_hw (fun _ => 0) (fun _ b => b)
        ⟨true, true, 4096, 0, 2, [],
          [⟨true, ⟨true, 4096, 0, 44100, 2, [], 1⟩⟩]⟩).2.1 ∧
      ((audio_run_out_hw (fun _ => 0) (fun _ b => b)
          ⟨true, true, 4096, 0, 2, [],
            [⟨true, ⟨true, 4096, 0, 44100, 2, [], 1⟩⟩]⟩).1.cap_head.length
        = (HWVoiceOut.mk true true 4096 0 2 []
            [⟨true, ⟨true, 4096, 0, 44100, 2, [], 1⟩⟩]).cap_head.length) ∧
      ∀ j (hj : j < (HWVoiceOut.mk true true 4096 0 2 []
            [⟨true, ⟨true, 4096, 0, 44100, 2, [], 1⟩⟩]).cap_head.length)
          (hj2 : j < (audio_run_out_hw (fun _ => 0) (fun _ b => b)
            ⟨true, true, 4096, 0, 2, [],
              [⟨true, ⟨true, 4096, 0, 44100, 2, [], 1⟩⟩]⟩
            ).1.cap_head.length),
        ((audio_run_out_hw (fun _ => 0) (fun _ b => b)
            ⟨true, true, 4096, 0, 2, [],
              [⟨true, ⟨true, 4096, 0, 44100, 2, [], 1⟩⟩]⟩).1.cap_head.get
            ⟨j, hj2⟩).sw_active = false ∧
        ((audio_run_out_hw (fun _ => 0) (fun _ b => b)
            ⟨true, true, 4096, 0, 2, [],
              [⟨true, ⟨true, 4096, 0, 44100, 2, [], 1⟩⟩]⟩).1.cap_head.get
            ⟨j, hj2⟩).cap.enabled
          = ((HWVoiceOut.mk true true 4096 0 2 []
              [⟨true, ⟨true, 4096, 0, 44100, 2, [], 1⟩⟩]).cap_head.get
              ⟨j, hj⟩).cap.sw_head.any (fun sw => sw.active)) ∧
    ((audio_run_out_hw (fun _ => 16384) (fun _ b => b)
        ⟨true, false, 4096, 0, 2, [⟨true, false, true, 2048, 2 ^ 32, 2⟩], []⟩
        ).1.enabled
      = (HWVoiceOut.mk true false 4096 0 2
          [⟨true, false, true, 2048, 2 ^ 32, 2⟩] []).enabled ∧
      (audio_run_out_hw (fun _ => 16384) (fun _ b => b)
        ⟨true, false, 4096, 0, 2, [⟨true, false, true, 2048, 2 ^ 32, 2⟩], []⟩
        ).1.pending_disable
      = (HWVoiceOut.mk true false 4096 0 2
          [⟨true, false, true, 2048, 2 ^ 32, 2⟩] []).pending_disable ∧
      ∀ ev ∈ (audio_run_out_hw (fun _ => 16384) (fun _ b => b)
        ⟨true, false, 4096, 0, 2, [⟨true, false, true, 2048, 2 ^ 32, 2⟩], []⟩
        ).2.1, ∀ b, ev ≠ AudEvent.ctlOut b) :=
  ⟨audio_set_active_deferred_disable.1 true
      ⟨true, false, 4096, 0, 2, [⟨true, false, true, 100, 2 ^ 32, 2⟩], []⟩
      0 (by decide) (by decide) (by decide) (by decide),
    audio_set_active_deferred_disable.2.1 (fun _ => 0) (fun _ b => b)
      ⟨true, true, 4096, 0, 2, [],
        [⟨true, ⟨true, 4096, 0, 44100, 2, [], 1⟩⟩]⟩ (by decide) (by decide),
    audio_set_active_deferred_disable.2.2 (fun _ => 16384) (fun _ b => b)
      ⟨true, false, 4096, 0, 2, [⟨true, false, true, 2048, 2 ^ 32, 2⟩], []⟩
      (by decide)⟩

theorem list_any_eraseIdx {α : Type} (p : α → Bool) :
    ∀ (l : List α) (i : Nat) (h : i < l.length),
      l.any p = (p (l.get ⟨i, h⟩) || (l.eraseIdx i).any p) := by
  intro l
  induction l with
  | nil => intro i h; simp at h
  | cons a l ih =>
    intro i h
    cases i with
    | zero => simp [List.eraseIdx]
    | succ n =>
      have hn : n < l.length := by simpa using h
      simp only [List.any_cons, List.eraseIdx, List.get]
      rw [ih n hn]
      cases p a <;> cases p (l.get ⟨n, hn⟩) <;> simp

theorem audio_notify_capture_count (n : Nat) (e : Bool) (k : Nat) :
    (audio_notify_capture n e).count (AudEvent.capNotify k e)
      = if k < n then 1 else 0 := by
  unfold audio_notify_capture
  have hinj : Function.Injective (fun k => AudEvent.capNotify k e) := by
    intro a b hab
    simpa using hab
  rw [List.count_map_of_injective _ _ hinj]
  by_cases hk : k < n
  · rw [if_pos hk]
    exact List.count_eq_one_of_mem (List.nodup_range n)
      (List.mem_range.mpr hk)
  · rw [if_neg hk]
    exact List.count_eq_zero_of_not_mem (by simpa using hk)

theorem audio_capture_maybe_changed_spec (cap : CaptureVoiceOut) (e : Bool) :
    (cap.enabled = e → (audio_capture_maybe_changed cap e).2 = []) ∧
    (cap.enabled ≠ e → (audio_capture_maybe_changed cap e).2
      = audio_notify_capture cap.n_cbs e) := by
  unfold audio_capture_maybe_changed
  constructor
  · intro h
    rw [if_neg (by simp [h])]
  · intro h
    rw [if_pos h]

theorem audio_run_capture_loop_no_notify (n_cbs shift mixSize : Nat) :
    ∀ fuel rpos live ev,
      ev ∈ (audio_run_capture_loop n_cbs shift mixSize fuel rpos live).2 →
        ∀ k b, ev ≠ AudEvent.capNotify k b := by
  intro fuel
  induction fuel with
  | zero => intro rpos live ev hm; simp [audio_run_capture_loop] at hm
  | succ n ih =>
    intro rpos live ev hm k b
    simp only [audio_run_capture_loop] at hm
    split at hm
    · simp at hm
    · dsimp only at hm
      rcases List.mem_append.mp hm with hm1 | hm2
      · rcases List.mem_map.mp hm1 with ⟨j, _, rfl⟩
        simp
      · exact ih _ _ ev hm2 k b

theorem audio_run_capture_cap_no_notify (cap : CaptureVoiceOut) :
    ∀ ev ∈ (audio_run_capture_cap cap).2, ∀ k b,
      ev ≠ AudEvent.capNotify k b := by
  intro ev hm k b
  unfold audio_run_capture_cap at hm
  dsimp only at hm
  exact audio_run_capture_loop_no_notify _ _ _ _ _ _ ev hm k b

theorem audio_attach_capture_one_spec (he : Bool) (hf : Nat)
    (cap : CaptureVoiceOut)
    (hinv : cap.enabled = cap.sw_head.any (fun sw => sw.active)) :
    ((audio_attach_capture_one he hf cap).2.1.enabled
      = (audio_attach_capture_one he hf cap).2.1.sw_head.any
          (fun sw => sw.active)) ∧
    ((audio_attach_capture_one he hf cap).2.1.sw_head.any
          (fun sw => sw.active)
        = cap.sw_head.any (fun sw => sw.active) →
      (audio_attach_capture_one he hf cap).2.2 = []) ∧
    ((audio_attach_capture_one he hf cap).2.1.sw_head.any
          (fun sw => sw.active)
        ≠ cap.sw_head.any (fun sw => sw.active) →
      (audio_attach_capture_one he hf cap).2.2
        = audio_notify_capture cap.n_cbs true) := by
  cases he with
  | false =>
    unfold audio_attach_capture_one
    dsimp only
    rw [if_neg (by simp)]
    refine ⟨by simp [hinv], fun _ => rfl, fun hne => ?_⟩
    exact absurd (by simp) hne
  | true =>
    unfold audio_attach_capture_one
    dsimp only
    rw [if_pos rfl]
    unfold audio_capture_maybe_changed
    dsimp only
    by_cases hc : cap.enabled = true
    · rw [if_neg (by simp [hc])]
      refine ⟨by simp [hc, hinv.symm.trans hc], fun _ => rfl, fun hne => ?_⟩
      exact absurd (by simp [← hinv, hc]) hne
    · rw [if_pos (by simp [hc])]
      have hcf : cap.enabled = false := by
        cases hb : cap.enabled
        · rfl
        · exact absurd hb hc
      refine ⟨by simp, fun heq => ?_, fun _ => rfl⟩
      rw [← hinv, hcf] at heq
      simp at heq

theorem audio_detach_capture_one_spec (cap : CaptureVoiceOut) (i : Nat)
    (h : i < cap.sw_head.length)
    (hinv : cap.enabled = cap.sw_head.any (fun sw => sw.active)) :
    ((audio_detach_capture_one cap i).1.enabled
      = (cap.sw_head.eraseIdx i).any (fun sw => sw.active)) ∧
    ((cap.sw_head.eraseIdx i).any (fun sw => sw.active)
        = cap.sw_head.any (fun sw => sw.active) →
      (audio_detach_capture_one cap i).2 = []) ∧
    ((cap.sw_head.eraseIdx i).any (fun sw => sw.active)
        ≠ cap.sw_head.any (fun sw => sw.active) →
      (audio_detach_capture_one cap i).2
        = audio_notify_capture cap.n_cbs false) := by
  have hgetd : cap.sw_head.getD i ⟨false, true, false, 0, 0, 0⟩
      = cap.sw_head.get ⟨i, h⟩ := by
    rw [List.getD_eq_getElem?_getD, List.getElem?_eq_getElem h]
    rfl
  have hsplit := list_any_eraseIdx (fun sw => sw.active) cap.sw_head i h
  unfold audio_detach_capture_one
  rw [hgetd]
  dsimp only
  cases hact : (cap.sw_head.get ⟨i, h⟩).active with
  | false =>
    rw [if_neg (by simp [hact])]
    rw [hact] at hsplit
    simp only [Bool.false_or] at hsplit
    exact ⟨by rw [hinv, hsplit], fun _ => rfl, fun hne =>
      absurd hsplit.symm hne⟩
  | true =>
    rw [if_pos (by simp [hact])]
    rw [hact] at hsplit
    simp only [Bool.true_or] at hsplit
    unfold audio_recalc_and_notify_capture audio_capture_maybe_changed
    dsimp only
    cases herase : (cap.sw_head.eraseIdx i).any (fun sw => sw.active) with
    | true =>
      rw [if_neg (by simp [hinv, hsplit])]
      refine ⟨?_, fun _ => rfl, fun hne => ?_⟩
      · rw [hinv, hsplit]
      · exact absurd (by rw [hsplit]) hne
    | false =>
      rw [if_pos (by simp [hinv, hsplit])]
      refine ⟨by simp, fun heq => ?_, fun _ => rfl⟩
      rw [hsplit] at heq
      exact absurd heq (by simp)

theorem audio_sc_set_active_spec (he : Bool) (sc : SWVoiceCap)
    (hinv : sc.cap.enabled
      = (sc.sw_active || sc.cap.sw_head.any (fun sw => sw.active)))
    (hdis : he = false → sc.sw_active = false) :
    ((audio_sc_set_active he sc).1.cap.enabled
      = ((audio_sc_set_active he sc).1.sw_active
        || (audio_sc_set_active he sc).1.cap.sw_head.any
            (fun sw => sw.active))) ∧
    (((audio_sc_set_active he sc).1.sw_active
        || (audio_sc_set_active he sc).1.cap.sw_head.any
            (fun sw => sw.active))
        = (sc.sw_active || sc.cap.sw_head.any (fun sw => sw.active)) →
      (audio_sc_set_active he sc).2 = []) ∧
    (((audio_sc_set_active he sc).1.sw_active
        || (audio_sc_set_active he sc).1.cap.sw_head.any
            (fun sw => sw.active))
        ≠ (sc.sw_active || sc.cap.sw_head.any (fun sw => sw.active)) →
      (audio_sc_set_active he sc).2
        = audio_notify_capture sc.cap.n_cbs true) := by
  cases he with
  | false =>
    have hsw := hdis rfl
    unfold audio_sc_set_active
    dsimp only
    rw [if_neg (by simp)]
    refine ⟨by simp [hinv, hsw], fun _ => rfl, fun hne => ?_⟩
    exact absurd (by rw [hsw]) hne
  | true =>
    unfold audio_sc_set_active
    dsimp only
    rw [if_pos rfl]
    unfold audio_capture_maybe_changed
    dsimp only
    cases hc : sc.cap.enabled with
    | true =>
      rw [if_neg (by simp [hc])]
      refine ⟨by simp [hc], fun _ => rfl, fun hne => ?_⟩
      rw [hc] at hinv
      exact absurd (by simp [← hinv]) hne
    | false =>
      rw [if_pos (by simp [hc])]
      rw [hc] at hinv
      refine ⟨by simp, fun heq => ?_, fun _ => rfl⟩
      rw [← hinv] at heq
      simp at heq

theorem audio_sc_disable_spec (sc : SWVoiceCap)
    (hinv : sc.cap.enabled
      = (sc.sw_active || sc.cap.sw_head.any (fun sw => sw.active))) :
    ((audio_sc_disable sc).1.cap.enabled
      = ((audio_sc_disable sc).1.sw_active
        || (audio_sc_disable sc).1.cap.sw_head.any
            (fun sw => sw.active))) ∧
    (((audio_sc_disable sc).1.sw_active
        || (audio_sc_disable sc).1.cap.sw_head.any (fun sw => sw.active))
        = (sc.sw_active || sc.cap.sw_head.any (fun sw => sw.active)) →
      (audio_sc_disable sc).2 = []) ∧
    (((audio_sc_disable sc).1.sw_active
        || (audio_sc_disable sc).1.cap.sw_head.any (fun sw => sw.active))
        ≠ (sc.sw_active || sc.cap.sw_head.any (fun sw => sw.active)) →
      (audio_sc_disable sc).2
        = audio_notify_capture sc.cap.n_cbs false) := by
  unfold audio_sc_disable audio_recalc_tap
  unfold audio_capture_maybe_changed
  dsimp only
  cases hany : sc.cap.sw_head.any (fun sw => sw.active) with
  | true =>
    rw [if_neg (by simp [hinv, hany])]
    refine ⟨by simp [hinv, hany], fun _ => rfl, fun hne => ?_⟩
    exact absurd (by simp [hany, hinv]) hne
  | false =>
    rw [hany] at hinv
    cases hsw : sc.sw_active with
    | false =>
      rw [hsw] at hinv
      rw [if_neg (by simp [hinv, hany])]
      refine ⟨by simp [hinv, hany], fun _ => rfl, fun hne => ?_⟩
      exact absurd (by simp [hany, hsw]) hne
    | true =>
      rw [hsw] at hinv
      rw [if_pos (by simp [hinv, hany])]
      refine ⟨by simp [hany], fun heq => ?_, fun _ => by simp [hany]⟩
      rw [hany] at heq
      simp at heq

/-- C4: a capture sink's registered notify callbacks are invoked exactly
when the sink's enabled state changes — that is, when the count of attached
active software voices crosses between zero and nonzero — once per
registered callback per transition, with ENABLE on a 0→1 crossing and
DISABLE on a 1→0 crossing, and never by an operation that leaves the
enabled state unchanged.  The conjuncts cover `audio_notify_capture`
(exactly one notification per registered callback),
`audio_capture_maybe_changed`, attaching a hardware voice's tap
(`audio_attach_capture`), detaching one (`audio_detach_capture`), the
propagation in `AUD_set_active_out`, the deferred-disable propagation in
`audio_run_out`, and `audio_run_capture` (which never notifies).  Each
operation is conditioned on the sink invariant: enabled iff some attached
voice is active. -/
theorem audio_capture_notify_exactly_on_transitions :
    (∀ (n : Nat) (e : Bool) (k : Nat),
      (audio_notify_capture n e).count (AudEvent.capNotify k e)
        = if k < n then 1 else 0) ∧
    (∀ (cap : CaptureVoiceOut) (e : Bool),
      (cap.enabled = e → (audio_capture_maybe_changed cap e).2 = []) ∧
      (cap.enabled ≠ e → (audio_capture_maybe_changed cap e).2
        = audio_notify_capture cap.n_cbs e)) ∧
    (∀ (he : Bool) (hf : Nat) (cap : CaptureVoiceOut),
      cap.enabled = cap.sw_head.any (fun sw => sw.active) →
      ((audio_attach_capture_one he hf cap).2.1.enabled
        = (audio_attach_capture_one he hf cap).2.1.sw_head.any
            (fun sw => sw.active)) ∧
      ((audio_attach_capture_one he hf cap).2.1.sw_head.any
            (fun sw => sw.active)
          = cap.sw_head.any (fun sw => sw.active) →
        (audio_attach_capture_one he hf cap).2.2 = []) ∧
      ((audio_attach_capture_one he hf cap).2.1.sw_head.any
            (fun sw => sw.active)
          ≠ cap.sw_head.any (fun sw => sw.active) →
        (audio_attach_capture_one he hf cap).2.2
          = audio_notify_capture cap.n_cbs true)) ∧
    (∀ (cap : CaptureVoiceOut) (i : Nat) (h : i < cap.sw_head.length),
      cap.enabled = cap.sw_head.any (fun sw => sw.active) →
      ((audio_detach_capture_one cap i).1.enabled
        = (cap.sw_head.eraseIdx i).any (fun sw => sw.active)) ∧
      ((cap.sw_head.eraseIdx i).any (fun sw => sw.active)
          = cap.sw_head.any (fun sw => sw.active) →
        (audio_detach_capture_one cap i).2 = []) ∧
      ((cap.sw_head.eraseIdx i).any (fun sw => sw.active)
          ≠ cap.sw_head.any (fun sw => sw.active) →
        (audio_detach_capture_one cap i).2
          = audio_notify_capture cap.n_cbs false)) ∧
    (∀ (he : Bool) (sc : SWVoiceCap),
      sc.cap.enabled
        = (sc.sw_active || sc.cap.sw_head.any (fun sw => sw.active)) →
      (he = false → sc.sw_active = false) →
      ((audio_sc_set_active he sc).1.cap.enabled
        = ((audio_sc_set_active he sc).1.sw_active
          || (audio_sc_set_active he sc).1.cap.sw_head.any
              (fun sw => sw.active))) ∧
      (((audio_sc_set_active he sc).1.sw_active
          || (audio_sc_set_active he sc).1.cap.sw_head.any
              (fun sw => sw.active))
          = (sc.sw_active || sc.cap.sw_head.any (fun sw => sw.active)) →
        (audio_sc_set_active he sc).2 = []) ∧
      (((audio_sc_set_active he sc).1.sw_active
          || (audio_sc_set_active he sc).1.cap.sw_head.any
              (fun sw => sw.active))
          ≠ (sc.sw_active || sc.cap.sw_head.any (fun sw => sw.active)) →
        (audio_sc_set_active he sc).2
          = audio_notify_capture sc.cap.n_cbs true)) ∧
    (∀ sc : SWVoiceCap,
      sc.cap.enabled
        = (sc.sw_active || sc.cap.sw_head.any (fun sw => sw.active)) →
      ((audio_sc_disable sc).1.cap.enabled
        = ((audio_sc_disable sc).1.sw_active
          || (audio_sc_disable sc).1.cap.sw_head.any
              (fun sw => sw.active))) ∧
      (((audio_sc_disable sc).1.sw_active
          || (audio_sc_disable sc).1.cap.sw_head.any (fun sw => sw.active))
          = (sc.sw_active || sc.cap.sw_head.any (fun sw => sw.active)) →
        (audio_sc_disable sc).2 = []) ∧
      (((audio_sc_disable sc).1.sw_active
          || (audio_sc_disable sc).1.cap.sw_head.any (fun sw => sw.active))
          ≠ (sc.sw_active || sc.cap.sw_head.any (fun sw => sw.active)) →
        (audio_sc_disable sc).2
          = audio_notify_capture sc.cap.n_cbs false)) ∧
    (∀ cap : CaptureVoiceOut, ∀ ev ∈ (audio_run_capture_cap cap).2, ∀ k b,
      ev ≠ AudEvent.capNotify k b) :=
  ⟨audio_notify_capture_count, audio_capture_maybe_changed_spec,
    audio_attach_capture_one_spec, audio_detach_capture_one_spec,
    audio_sc_set_active_spec, audio_sc_disable_spec,
    audio_run_capture_cap_no_notify⟩

/-- Closed witness for `audio_capture_notify_exactly_on_transitions` at
concrete sinks and taps. -/
theorem audio_capture_notify_exactly_on_transitions_witness :
    ((audio_notify_capture 2 true).count (AudEvent.capNotify 0 true)
      = if 0 < 2 then 1 else 0) ∧
    (((CaptureVoiceOut.mk false 16 0 44100 1 [] 2).enabled = true →
      (audio_capture_maybe_changed ⟨false, 16, 0, 44100, 1, [], 2⟩
        true).2 = []) ∧
     ((CaptureVoiceOut.mk false 16 0 44100 1 [] 2).enabled ≠ true →
      (audio_capture_maybe_changed ⟨false, 16, 0, 44100, 1, [], 2⟩ true).2
        = audio_notify_capture 2 true)) ∧
    (((audio_attach_capture_one true 44100
          ⟨false, 16, 0, 44100, 1, [], 2⟩).2.1.enabled
        = (audio_attach_capture_one true 44100
            ⟨false, 16, 0, 44100, 1, [], 2⟩).2.1.sw_head.any
            (fun sw => sw.active)) ∧
      ((audio_attach_capture_one true 44100
            ⟨false, 16, 0, 44100, 1, [], 2⟩).2.1.sw_head.any
            (fun sw => sw.active)
          = (CaptureVoiceOut.mk false 16 0 44100 1 [] 2).sw_head.any
              (fun sw => sw.active) →
        (audio_attach_capture_one true 44100
          ⟨false, 16, 0, 44100, 1, [], 2⟩).2.2 = []) ∧
      ((audio_attach_capture_one true 44100
            ⟨false, 16, 0, 44100, 1, [], 2⟩).2.1.sw_head.any
            (fun sw => sw.active)
          ≠ (CaptureVoiceOut.mk false 16 0 44100 1 [] 2).sw_head.any
              (fun sw => sw.active) →
        (audio_attach_capture_one true 44100
          ⟨false, 16, 0, 44100, 1, [], 2⟩).2.2
          = audio_notify_capture 2 true)) ∧
    (((audio_detach_capture_one
          ⟨true, 16, 0, 44100, 1, [⟨true, true, false, 0, 2 ^ 32, 0⟩], 1⟩
          0).1.enabled
        = ((CaptureVoiceOut.mk true 16 0 44100 1
            [⟨true, true, false, 0, 2 ^ 32, 0⟩] 1).sw_head.eraseIdx 0).any
            (fun sw => sw.active)) ∧
      (((CaptureVoiceOut.mk true 16 0 44100 1
            [⟨true, true, false, 0, 2 ^ 32, 0⟩] 1).sw_head.eraseIdx 0).any
            (fun sw => sw.active)
          = (CaptureVoiceOut.mk true 16 0 44100 1
              [⟨true, true, false, 0, 2 ^ 32, 0⟩] 1).sw_head.any
              (fun sw => sw.active) →
        (audio_detach_capture_one
          ⟨true, 16, 0, 44100, 1, [⟨true, true, false, 0, 2 ^ 32, 0⟩], 1⟩
          0).2 = []) ∧
      (((CaptureVoiceOut.mk true 16 0 44100 1
            [⟨true, true, false, 0, 2 ^ 32, 0⟩] 1).sw_head.eraseIdx 0).any
            (fun sw => sw.active)
          ≠ (CaptureVoiceOut.mk true 16 0 44100 1
              [⟨true, true, false, 0, 2 ^ 32, 0⟩] 1).sw_head.any
              (fun sw => sw.active) →
        (audio_detach_capture_one
          ⟨true, 16, 0, 44100, 1, [⟨true, true, false, 0, 2 ^ 32, 0⟩], 1⟩
          0).2 = audio_notify_capture 1 false)) ∧
    (((audio_sc_set_active true
          ⟨false, ⟨false, 16, 0, 44100, 1, [], 2⟩⟩).1.cap.enabled
        = ((audio_sc_set_active true
            ⟨false, ⟨false, 16, 0, 44100, 1, [], 2⟩⟩).1.sw_active
          || (audio_sc_set_active true
              ⟨false, ⟨false, 16, 0, 44100, 1, [], 2⟩⟩).1.cap.sw_head.any
              (fun sw => sw.active))) ∧
      (((audio_sc_set_active true
            ⟨false, ⟨false, 16, 0, 44100, 1, [], 2⟩⟩).1.sw_active
          || (audio_sc_set_active true
              ⟨false, ⟨false, 16, 0, 44100, 1, [], 2⟩⟩).1.cap.sw_head.any
              (fun sw => sw.active))
          = (false || (CaptureVoiceOut.mk false 16 0 44100 1 [] 2).sw_head.any
              (fun sw => sw.active)) →
        (audio_sc_set_active true
          ⟨false, ⟨false, 16, 0, 44100, 1, [], 2⟩⟩).2 = []) ∧
      (((audio_sc_set_active true
            ⟨false, ⟨false, 16, 0, 44100, 1, [], 2⟩⟩).1.sw_active
          || (audio_sc_set_active true
              ⟨false, ⟨false, 16, 0, 44100, 1, [], 2⟩⟩).1.cap.sw_head.any
              (fun sw => sw.active))
          ≠ (false || (CaptureVoiceOut.mk false 16 0 44100 1 [] 2).sw_head.any
              (fun sw => sw.active)) →
        (audio_sc_set_active true
          ⟨false, ⟨false, 16, 0, 44100, 1, [], 2⟩⟩).2
          = audio_notify_capture 2 true)) ∧
    (((audio_sc_disable
          ⟨true, ⟨true, 16, 0, 44100, 1, [], 1⟩⟩).1.cap.enabled
        = ((audio_sc_disable
            ⟨true, ⟨true, 16, 0, 44100, 1, [], 1⟩⟩).1.sw_active
          || (audio_sc_disable
              ⟨true, ⟨true, 16, 0, 44100, 1, [], 1⟩⟩).1.cap.sw_head.any
              (fun sw => sw.active))) ∧
      (((audio_sc_disable
            ⟨true, ⟨true, 16, 0, 44100, 1, [], 1⟩⟩).1.sw_active
          || (audio_sc_disable
              ⟨true, ⟨true, 16, 0, 44100, 1, [], 1⟩⟩).1.cap.sw_head.any
              (fun sw => sw.active))
          = (true || (CaptureVoiceOut.mk true 16 0 44100 1 [] 1).sw_head.any
              (fun sw => sw.active)) →
        (audio_sc_disable ⟨true, ⟨true, 16, 0, 44100, 1, [], 1⟩⟩).2 = []) ∧
      (((audio_sc_disable
            ⟨true, ⟨true, 16, 0, 44100, 1, [], 1⟩⟩).1.sw_active
          || (audio_sc_disable
              ⟨true, ⟨true, 16, 0, 44100, 1, [], 1⟩⟩).1.cap.sw_head.any
              (fun sw => sw.active))
          ≠ (true || (CaptureVoiceOut.mk true 16 0 44100 1 [] 1).sw_head.any
              (fun sw => sw.active)) →
        (audio_sc_disable ⟨true, ⟨true, 16, 0, 44100, 1, [], 1⟩⟩).2
          = audio_notify_capture 1 false)) ∧
    (∀ k b, AudEvent.capData 0 16 ≠ AudEvent.capNotify k b) := by
  have h := audio_capture_notify_exactly_on_transitions
  exact ⟨h.1 2 true 0,
    h.2.1 ⟨false, 16, 0, 44100, 1, [], 2⟩ true,
    h.2.2.1 true 44100 ⟨false, 16, 0, 44100, 1, [], 2⟩ (by decide),
    h.2.2.2.1 ⟨true, 16, 0, 44100, 1, [⟨true, true, false, 0, 2 ^ 32, 0⟩], 1⟩
      0 (by decide) (by decide),
    h.2.2.2.2.1 true ⟨false, ⟨false, 16, 0, 44100, 1, [], 2⟩⟩ (by decide)
      (fun hh => absurd hh (by decide)),
    h.2.2.2.2.2.1 ⟨true, ⟨true, 16, 0, 44100, 1, [], 1⟩⟩ (by decide),
    h.2.2.2.2.2.2 ⟨true, 16, 0, 44100, 1, [⟨true, false, false, 8, 2 ^ 32, 0⟩], 1⟩
      (AudEvent.capData 0 16) (by decide)⟩

theorem audio_pcm_hw_run_out_loop_pos_lt (getSize : Nat → Nat)
    (put : Nat → Nat → Nat) (shift mixSize : Nat) (hm : 0 < mixSize) :
    ∀ fuel step pos live clipped, pos < mixSize →
      (audio_pcm_hw_run_out_loop getSize put shift mixSize fuel step pos live
        clipped).2 < mixSize := by
  intro fuel
  induction fuel with
  | zero =>
    intro step pos live clipped hp
    simpa [audio_pcm_hw_run_out_loop] using hp
  | succ n ih =>
    intro step pos live clipped hp
    simp only [audio_pcm_hw_run_out_loop]
    split
    · simpa using hp
    · split
      · exact Nat.mod_lt _ hm
      · exact ih _ _ _ _ (Nat.mod_lt _ hm)

theorem audio_pcm_hw_run_in_loop_pos_lt (getSizeIn : Nat → Nat → Nat)
    (bpf convSize : Nat) (hm : 0 < convSize) :
    ∀ fuel step convPos samples conv, convPos < convSize →
      (audio_pcm_hw_run_in_loop getSizeIn bpf convSize fuel step convPos
        samples conv).2 < convSize := by
  intro fuel
  induction fuel with
  | zero =>
    intro step convPos samples conv hp
    simpa [audio_pcm_hw_run_in_loop] using hp
  | succ n ih =>
    intro step convPos samples conv hp
    simp only [audio_pcm_hw_run_in_loop]
    split
    · simpa using hp
    · split
      · simpa using hp
      · exact ih _ _ _ _ (Nat.mod_lt _ hm)

theorem audio_run_capture_loop_pos_lt (n_cbs shift mixSize : Nat)
    (hm : 0 < mixSize) :
    ∀ fuel rpos live, rpos < mixSize →
      (audio_run_capture_loop n_cbs shift mixSize fuel rpos live).1
        < mixSize := by
  intro fuel
  induction fuel with
  | zero =>
    intro rpos live hp
    simpa [audio_run_capture_loop] using hp
  | succ n ih =>
    intro rpos live hp
    simp only [audio_run_capture_loop]
    split
    · simpa using hp
    · exact ih _ _ (Nat.mod_lt _ hm)

/-- C8: the ring buffer position cursor stays within `0 ≤ pos < capacity`:
every operation that advances it — the playback run loop
(`audio_pcm_hw_run_out`), the backend push loop
(`audio_generic_put_buffer_out_nowrite`), the capture fan-out loop
(`audio_run_capture`) and the capture conversion loop
(`audio_pcm_hw_run_in`) — updates it modulo the buffer capacity, so the
cursor after any of them is a valid index. -/
theorem audio_ring_position_in_bounds :
    (∀ (getSize : Nat → Nat) (put : Nat → Nat → Nat)
        (shift mixSize fuel step pos live clipped : Nat),
      0 < mixSize → pos < mixSize →
      (audio_pcm_hw_run_out_loop getSize put shift mixSize fuel step pos live
        clipped).2 < mixSize) ∧
    (∀ pos_emul pending_emul size_emul bytes : Nat, 0 < size_emul →
      (audio_generic_put_buffer_out_nowrite pos_emul pending_emul size_emul
        bytes).2.2 < size_emul) ∧
    (∀ n_cbs shift mixSize fuel rpos live : Nat, 0 < mixSize →
      rpos < mixSize →
      (audio_run_capture_loop n_cbs shift mixSize fuel rpos live).1
        < mixSize) ∧
    (∀ (getSizeIn : Nat → Nat → Nat)
        (bpf convSize fuel step convPos samples conv : Nat),
      0 < convSize → convPos < convSize →
      (audio_pcm_hw_run_in_loop getSizeIn bpf convSize fuel step convPos
        samples conv).2 < convSize) :=
  ⟨fun getSize put shift mixSize fuel step pos live clipped hm hp =>
      audio_pcm_hw_run_out_loop_pos_lt getSize put shift mixSize hm fuel step
        pos live clipped hp,
    fun _ _ _ bytes hm => Nat.mod_lt _ hm,
    fun n_cbs shift mixSize fuel rpos live hm hp =>
      audio_run_capture_loop_pos_lt n_cbs shift mixSize hm fuel rpos live hp,
    fun getSizeIn bpf convSize fuel step convPos samples conv hm hp =>
      audio_pcm_hw_run_in_loop_pos_lt getSizeIn bpf convSize hm fuel step
        convPos samples conv hp⟩

/-- Closed witness for `audio_ring_position_in_bounds` at concrete loops. -/
theorem audio_ring_position_in_bounds_witness :
    ((audio_pcm_hw_run_out_loop (fun _ => 64) (fun _ b => b) 1 7 5 0 3 9
      0).2 < 7) ∧
    ((audio_generic_put_buffer_out_nowrite 3 0 7 11).2.2 < 7) ∧
    ((audio_run_capture_loop 2 1 7 5 3 9).1 < 7) ∧
    ((audio_pcm_hw_run_in_loop (fun _ r => r) 1 7 5 0 3 9 0).2 < 7) :=
  ⟨audio_ring_position_in_bounds.1 (fun _ => 64) (fun _ b => b) 1 7 5 0 3 9 0
      (by decide) (by decide),
    audio_ring_position_in_bounds.2.1 3 0 7 11 (by decide),
    audio_ring_position_in_bounds.2.2.1 2 1 7 5 3 9 (by decide) (by decide),
    audio_ring_position_in_bounds.2.2.2 (fun _ r => r) 1 7 5 0 3 9 0
      (by decide) (by decide)⟩

/-- C10: the public `AUD_write` with a null software voice pointer returns
`size` (reporting full acceptance) while changing no engine state, and
likewise `AUD_read` with a null voice returns `size`; calling `AUD_write`
or `AUD_read` on a voice whose hardware voice is disabled returns 0 and
changes no counters. -/
theorem AUD_write_read_null_and_disabled :
    (∀ (mixeng : Bool) (bw : Nat → Nat) (e : Bool) (hs hp size : Nat),
      AUD_write mixeng bw e hs hp none size = (size, none)) ∧
    (∀ (mixeng : Bool) (br : Nat → Nat) (hw : HWVoiceIn) (size : Nat),
      AUD_read mixeng br hw none size = (size, none)) ∧
    (∀ (mixeng : Bool) (bw : Nat → Nat) (hs hp : Nat) (sw : SWVoiceOut)
        (size : Nat),
      AUD_write mixeng bw false hs hp (some sw) size = (0, some sw)) ∧
    (∀ (mixeng : Bool) (br : Nat → Nat) (cs cp t : Nat)
        (l : List SWVoiceIn) (sw : SWVoiceIn) (size : Nat),
      AUD_read mixeng br ⟨false, cs, cp, t, l⟩ (some sw) size
        = (0, some sw)) :=
  ⟨fun _ _ _ _ _ _ => rfl, fun _ _ _ _ => rfl,
    fun _ _ _ _ _ _ => rfl, fun _ _ _ _ _ _ _ _ => rfl⟩
